import Mathlib

set_option maxRecDepth 16000

/-!
# Verification of the structural-zones trading dashboard core

A shallow embedding, in Lean 4, of the analytical core of the daily-bar
market-structure scanner (trend classification, zone clustering, pullback
analysis, nearest-zone proximity, sweet-spot gating, trade models, scan
orchestration), together with theorems settling the specification claims.

Conventions of the embedding:
* JS `number` values are modelled by `ℚ` (exact real-valued semantics of the
  program's arithmetic).  Where the source explicitly tests `Number.isFinite`
  on an input, that input is modelled as `Option ℚ`, `none` standing for a
  non-finite value (`NaN` / `±Infinity`); `none` propagates through arithmetic
  exactly as non-finite values propagate in the source's checks.
* JS arrays are Lean lists; `arr.slice(-n)` (with `n > 0`) is `takeRight n`.
* `Array.prototype.sort` with a numeric comparator is a stable ascending (or
  descending) sort; it is modelled with `List.insertionSort`, which is stable.
  For lists of plain rationals stability is irrelevant (equal elements are
  identical), so any correct ascending sort yields the identical list.
-/

namespace TradingScan

/-- Trend direction, shared by `MacroTrend` and `TrendDayDirection` in
`trend-analysis.ts` (both are the string union `"Bull" | "Bear" | "Neutral"`). -/
inductive MacroTrend where
  | Bull
  | Bear
  | Neutral
deriving DecidableEq, Repr

/-- `TrendDayDirection` from `trend-analysis.ts` (same value set as `MacroTrend`). -/
abbrev TrendDayDirection := MacroTrend

/-- `TrendAlignment` from `trend-analysis.ts`. -/
inductive TrendAlignment where
  | AlignedLong
  | AlignedShort
  | CounterLong
  | CounterShort
  | Neutral
deriving DecidableEq, Repr

/-- `SymbolCode` from `types.ts`. -/
inductive SymbolCode where
  | XAUUSD
  | EURUSD
  | GBPJPY
  | GBPUSD
deriving DecidableEq, Repr

/-- `OhlcBar` from `types.ts`.  The `open` field is renamed `openP` (`open` is a
Lean keyword).  `spread` is the optional broker spread field used by the trade
models' spread gate. -/
structure OhlcBar where
  date : String
  openP : ℚ
  high : ℚ
  low : ℚ
  close : ℚ
  spread : Option ℚ := none
deriving DecidableEq, Repr

/-- JS `arr.slice(-n)` for `n > 0`: the last `n` elements. -/
def takeRight (n : ℕ) (l : List α) : List α := l.drop (l.length - n)

/-- The list of adjacent pairs `(l[i-1], l[i])` of a list, in order. -/
def adjacentPairs (l : List α) : List (α × α) := l.zip l.tail

/-- `CONFIG.lookback_days` from `types.ts`. -/
def CONFIG_lookback_days : ℕ := 20

/-- `CONFIG.trend_lookback` from `types.ts`. -/
def CONFIG_trend_lookback : ℕ := 10

/-- `CONFIG.min_rr` from `types.ts`. -/
def CONFIG_min_rr : ℚ := 2

/-- `CONFIG.risk_cap` from `types.ts` (XAUUSD 40.0, others 0.0040). -/
def CONFIG_risk_cap : SymbolCode → ℚ
  | .XAUUSD => 40
  | _ => 4/1000

/-- `CONFIG.oc_cluster_radius` from `types.ts` (XAUUSD 5.0, others 0.0005). -/
def CONFIG_oc_cluster_radius : SymbolCode → ℚ
  | .XAUUSD => 5
  | _ => 5/10000

/-- `CONFIG.sl_buffer` from `types.ts` (XAUUSD 2.0, others 0.0005). -/
def CONFIG_sl_buffer : SymbolCode → ℚ
  | .XAUUSD => 2
  | _ => 5/10000

/-! ## Trend classifier (`trend-analysis.ts`) -/

/-- `classifyTrendDayForPair` from `trend-analysis.ts`: break of the prior
bar's extreme plus a close beyond it, with no close beyond the opposite
extreme, makes a Bull/Bear trend day; anything else is Neutral. -/
def classifyTrendDayForPair (prev cur : OhlcBar) : TrendDayDirection :=
  let brokeHigh := prev.high < cur.high
  let brokeLow := cur.low < prev.low
  let closedAbovePrevHigh := prev.high < cur.close
  let closedBelowPrevLow := cur.close < prev.low
  if ¬brokeHigh ∧ ¬brokeLow then .Neutral
  else if closedAbovePrevHigh ∧ ¬closedBelowPrevLow then .Bull
  else if closedBelowPrevLow ∧ ¬closedAbovePrevHigh then .Bear
  else .Neutral

/-- The bar window examined by `computeLatestTrendDay` / `computeMacroTrend`:
`bars.slice(-Math.max(trendLookback + 1, 2))`. -/
def trendWindow (bars : List OhlcBar) (trendLookback : ℕ) : List OhlcBar :=
  takeRight (max (trendLookback + 1) 2) bars

/-- The trend-day classifications of the adjacent bar pairs inside the trend
window (the loop body shared by `computeLatestTrendDay` and
`computeMacroTrend` in `trend-analysis.ts`). -/
def trendDaysInWindow (bars : List OhlcBar) (trendLookback : ℕ) :
    List TrendDayDirection :=
  (adjacentPairs (trendWindow bars trendLookback)).map
    (fun pc => classifyTrendDayForPair pc.1 pc.2)

/-- `computeLatestTrendDay` from `trend-analysis.ts`: the last non-Neutral
trend day in the window, Neutral if there is none. -/
def computeLatestTrendDay (bars : List OhlcBar) (trendLookback : ℕ) :
    TrendDayDirection :=
  (trendDaysInWindow bars trendLookback).foldl
    (fun latest td => if td ≠ .Neutral then td else latest) .Neutral

/-- Bull trend-day count inside the trend window (`bullCount` in
`computeMacroTrend`). -/
def bullTrendDayCount (bars : List OhlcBar) (trendLookback : ℕ) : ℕ :=
  (trendDaysInWindow bars trendLookback).count .Bull

/-- Bear trend-day count inside the trend window (`bearCount` in
`computeMacroTrend`). -/
def bearTrendDayCount (bars : List OhlcBar) (trendLookback : ℕ) : ℕ :=
  (trendDaysInWindow bars trendLookback).count .Bear

/-- `TrendDiagnostics` from `types.ts`, as filled in by `computeMacroTrend`. -/
structure TrendDiagnostics where
  lookback : ℕ
  bullTrendDays : ℕ
  bearTrendDays : ℕ
  sampleSize : ℕ
  threshold : ℕ
deriving DecidableEq, Repr

/-- `computeMacroTrend` from `trend-analysis.ts`.  The 60% dominance
threshold `Math.ceil(total * 0.6)` is `⌈3·total/5⌉`, written with exact
natural-number arithmetic as `(3 * total + 4) / 5`. -/
def computeMacroTrend (bars : List OhlcBar) (trendLookback : ℕ) :
    MacroTrend × TrendDiagnostics :=
  let bullCount := bullTrendDayCount bars trendLookback
  let bearCount := bearTrendDayCount bars trendLookback
  let total := bullCount + bearCount
  if total = 0 then
    (.Neutral,
      { lookback := trendLookback, bullTrendDays := 0, bearTrendDays := 0,
        sampleSize := 0, threshold := 0 })
  else
    let threshold := (3 * total + 4) / 5
    let macroTrend : MacroTrend :=
      if threshold ≤ bullCount ∧ bearCount < bullCount then .Bull
      else if threshold ≤ bearCount ∧ bullCount < bearCount then .Bear
      else .Neutral
    (macroTrend,
      { lookback := trendLookback, bullTrendDays := bullCount,
        bearTrendDays := bearCount, sampleSize := total, threshold := threshold })

/-- `computeTrendAlignment` from `trend-analysis.ts`. -/
def computeTrendAlignment (macroT : MacroTrend) (trendDay : TrendDayDirection) :
    TrendAlignment :=
  if macroT = .Bull ∧ trendDay = .Bull then .AlignedLong
  else if macroT = .Bear ∧ trendDay = .Bear then .AlignedShort
  else if macroT = .Bull ∧ trendDay = .Bear then .CounterShort
  else if macroT = .Bear ∧ trendDay = .Bull then .CounterLong
  else .Neutral

/-- The trend fields of `classifyTrend`'s result that the pullback analyzer
consumes (`macroTrend`, `trendDay`, `alignment`).  The `location` / `atr20` /
diagnostics fields of the source's `TrendAnalysis` do not influence those
three fields and are not needed by any claim, so they are omitted here. -/
structure TrendCore where
  macroTrend : MacroTrend
  trendDay : TrendDayDirection
  alignment : TrendAlignment
deriving DecidableEq, Repr

/-- `classifyTrend` from `trend-analysis.ts`, restricted to the trend triple
(see `TrendCore`).  Fewer than 2 bars yield the all-Neutral degenerate
result, exactly as in the source. -/
def classifyTrend (bars : List OhlcBar) (trendLookback : ℕ) : TrendCore :=
  if bars.length < 2 then
    { macroTrend := .Neutral, trendDay := .Neutral, alignment := .Neutral }
  else
    let trendDay := computeLatestTrendDay bars trendLookback
    let macroTrend := (computeMacroTrend bars trendLookback).1
    { macroTrend := macroTrend, trendDay := trendDay,
      alignment := computeTrendAlignment macroTrend trendDay }

/-! ## Pullback analyzer (`pullback-analysis.ts`) -/

/-- `PullbackBucket` from `pullback-analysis.ts`; the constructors stand for
the six bucket labels `"0-0.382"`, `"0.382-0.5"`, `"0.5-0.618"`,
`"0.618-0.786"`, `"0.786-1.0"`, `"1.0+"`. -/
inductive PullbackBucket where
  | d000_382
  | d382_500
  | d500_618
  | d618_786
  | d786_100
  | d100plus
deriving DecidableEq, Repr

/-- The exact bucket label string each `PullbackBucket` constructor stands
for. -/
def bucketLabel : PullbackBucket → String
  | .d000_382 => "0-0.382"
  | .d382_500 => "0.382-0.5"
  | .d500_618 => "0.5-0.618"
  | .d618_786 => "0.618-0.786"
  | .d786_100 => "0.786-1.0"
  | .d100plus => "1.0+"

/-- `classifyPullbackBucket` from `pullback-analysis.ts`.  The source first
maps a non-finite depth to `"0-0.382"`; rational depths are always finite, so
that guard never fires in this embedding. -/
def classifyPullbackBucket (depth : ℚ) : PullbackBucket :=
  if depth < 382/1000 then .d000_382
  else if depth < 5/10 then .d382_500
  else if depth < 618/1000 then .d500_618
  else if depth < 786/1000 then .d618_786
  else if depth < 1 then .d786_100
  else .d100plus

/-- `TINY_RANGE` from `pullback-analysis.ts` (`1e-6`). -/
def TINY_RANGE : ℚ := 1/1000000

/-- `computeDepthIntoPrevious` from `pullback-analysis.ts`.  The source
returns `NaN` for the degenerate cases (range at most `TINY_RANGE`, or
Neutral macro trend); `NaN` is modelled as `none`. -/
def computeDepthIntoPrevious (prev curr : OhlcBar)
    (macroTrendPrev : MacroTrend) : Option ℚ :=
  let range := prev.high - prev.low
  if range ≤ TINY_RANGE then none
  else
    match macroTrendPrev with
    | .Bull => some (max 0 ((prev.high - curr.low) / range))
    | .Bear => some (max 0 ((curr.high - prev.low) / range))
    | .Neutral => none

/-- `computeLivePullbackIntoPrev` from `pullback-analysis.ts`.  The prior
bar's high/low and the current reference price are modelled as `Option ℚ`
because the source tests `Number.isFinite` on the current price and on the
prior range (`none` = non-finite).  With all inputs finite and a positive
range, the computed depth is finite, so the source's final finiteness check
always passes. -/
def computeLivePullbackIntoPrev (prevHigh prevLow currentPrice : Option ℚ)
    (macroTrend : MacroTrend) : Option ℚ :=
  match currentPrice, prevHigh, prevLow with
  | some p, some ph, some pl =>
    let range := ph - pl
    if range ≤ 0 then none
    else
      match macroTrend with
      | .Bull => some (max 0 ((ph - p) / range))
      | .Bear => some (max 0 ((p - pl) / range))
      | .Neutral => none
  | _, _, _ => none

/-- `PullbackScenarioKey` from `pullback-analysis.ts`. -/
structure PullbackScenarioKey where
  macroTrendPrev : MacroTrend
  trendDayPrev : TrendDayDirection
  alignmentPrev : TrendAlignment
deriving DecidableEq, Repr

/-- `CandlePairPullbackRecord` from `pullback-analysis.ts`. -/
structure CandlePairPullbackRecord where
  symbol : SymbolCode
  prevIndex : ℕ
  currIndex : ℕ
  datePrev : String
  dateCurr : String
  prevHigh : ℚ
  prevLow : ℚ
  currHigh : ℚ
  currLow : ℚ
  scenario : PullbackScenarioKey
  depthIntoPrevPct : ℚ
  bucket : PullbackBucket
deriving DecidableEq, Repr

/-- The scenario key assigned to a historical pullback record: the trend
triple of the bar history up to and including the prior bar
(`classifyTrend(bars.slice(0, prevIndex + 1), { trendLookback })`). -/
def scenarioKeyOf (historyUpToPrev : List OhlcBar) (trendLookback : ℕ) :
    PullbackScenarioKey :=
  let t := classifyTrend historyUpToPrev trendLookback
  { macroTrendPrev := t.macroTrend, trendDayPrev := t.trendDay,
    alignmentPrev := t.alignment }

/-- The body of the `buildCandlePairPullbacks` loop for one current-bar
index: build the record for the pair `(bars[currIndex-1], bars[currIndex])`,
or `none` when the depth comes out `NaN`. -/
def buildPullbackRecordAt (symbol : SymbolCode) (bars : List OhlcBar)
    (trendLookback : ℕ) (currIndex : ℕ) : Option CandlePairPullbackRecord :=
  match bars[currIndex - 1]?, bars[currIndex]? with
  | some prev, some curr =>
    let key := scenarioKeyOf (bars.take currIndex) trendLookback
    match computeDepthIntoPrevious prev curr key.macroTrendPrev with
    | none => none
    | some depth =>
      some
        { symbol := symbol, prevIndex := currIndex - 1, currIndex := currIndex,
          datePrev := prev.date, dateCurr := curr.date,
          prevHigh := prev.high, prevLow := prev.low,
          currHigh := curr.high, currLow := curr.low,
          scenario := key, depthIntoPrevPct := depth,
          bucket := classifyPullbackBucket depth }
  | _, _ => none

/-- `buildCandlePairPullbacks` from `pullback-analysis.ts`.  The loop runs
`currIndex` from `max(1, bars.length - lookbackDays + 1)` to
`bars.length - 1`; `bars.slice(0, prevIndex + 1)` is `bars.take currIndex`. -/
def buildCandlePairPullbacks (symbol : SymbolCode) (bars : List OhlcBar)
    (trendLookback lookbackDays : ℕ) : List CandlePairPullbackRecord :=
  if bars.length < 2 then []
  else
    let currentWindowStart := max 1 (bars.length - lookbackDays + 1)
    (List.range bars.length).filterMap fun currIndex =>
      if currIndex < currentWindowStart then none
      else buildPullbackRecordAt symbol bars trendLookback currIndex

/-- The historical depth formula as the spec words it (overlap plus
overshoot over the prior range), stated for comparison against the source's
`computeDepthIntoPrevious`.  Following the spec's words: "overlap = max(0,
min(highs) − max(lows)) between the two bars' ranges, overshoot =
max(priorLow−currLow, currHigh−priorHigh, 0), depth =
(overlap+overshoot)/priorRange". -/
def specOverlapOvershootDepth (prevHigh prevLow currHigh currLow : ℚ) : ℚ :=
  let overlap := max 0 (min prevHigh currHigh - max prevLow currLow)
  let overshoot := max (prevLow - currLow) (max (currHigh - prevHigh) 0)
  (overlap + overshoot) / (prevHigh - prevLow)

/-! ## Zone builder (`zones.ts`) -/

/-- `OcZone` from `types.ts`.  The open/close counting score is a natural
number in every run of the program. -/
structure OcZone where
  zone_low : ℚ
  zone_high : ℚ
  zone_mid : ℚ
  score : ℕ
deriving DecidableEq, Repr

/-- `LiquidityMap` from `types.ts`. -/
structure LiquidityMap where
  highs : List ℚ
  lows : List ℚ
deriving DecidableEq, Repr

/-- `nearestAbove` from `zones.ts`: the smallest list element strictly above
`price`, `null` when there is none. -/
def nearestAbove (list : List ℚ) (price : ℚ) : Option ℚ :=
  (list.filter (fun p => price < p)).min?

/-- `nearestBelow` from `zones.ts`: the largest list element strictly below
`price`, `null` when there is none. -/
def nearestBelow (list : List ℚ) (price : ℚ) : Option ℚ :=
  (list.filter (fun p => p < price)).max?

/-- `createLiquidityMap` from `zones.ts`. -/
def createLiquidityMap (bars : List OhlcBar) : LiquidityMap :=
  { highs := bars.map OhlcBar.high, lows := bars.map OhlcBar.low }

/-- The clustering loop of `findStructuralZones`: `revCur` holds the current
cluster in reverse order with `last` its most recently pushed point (the
`lastPointInCluster` the source compares against); `done` holds the finished
clusters. -/
def clusterLoop (radius : ℚ) (done : List (List ℚ)) (revCur : List ℚ)
    (last : ℚ) : List ℚ → List (List ℚ)
  | [] => done ++ [(last :: revCur).reverse]
  | p :: ps =>
    if |p - last| ≤ radius then clusterLoop radius done (last :: revCur) p ps
    else clusterLoop radius (done ++ [(last :: revCur).reverse]) [] p ps

/-- The clustering pass of `findStructuralZones` over the sorted point list:
consecutive points whose gap is at most `radius` join the same cluster.
The source only reaches this with a nonempty point list (it starts from
`points[0]`); the empty case is given the empty partition. -/
def clusterPoints (radius : ℚ) : List ℚ → List (List ℚ)
  | [] => []
  | p :: ps => clusterLoop radius [] [] p ps

/-- All opens and closes of the analysis window, in the source's push order
(open then close, bar by bar). -/
def openClosePoints (analysisBars : List OhlcBar) : List ℚ :=
  analysisBars.foldr (fun b acc => b.openP :: b.close :: acc) []

/-- The ascending-sorted multiset of all opens and closes of the last
`lookback` bars (`points.sort((a, b) => a - b)` in the source). -/
def sortedZonePoints (lookback : ℕ) (bars : List OhlcBar) : List ℚ :=
  (openClosePoints (takeRight lookback bars)).insertionSort (· ≤ ·)

/-- The score of a zone band: 2 per close and 1 per open of the analysis
window falling inside `[zone_low, zone_high]`, both bounds inclusive. -/
def zoneScore (analysisBars : List OhlcBar) (lo hi : ℚ) : ℕ :=
  analysisBars.foldl
    (fun score b =>
      let score := if lo ≤ b.close ∧ b.close ≤ hi then score + 2 else score
      if lo ≤ b.openP ∧ b.openP ≤ hi then score + 1 else score) 0

/-- Zone built from one (nonempty) cluster: `low = Math.min(...cluster)`,
`high = Math.max(...cluster)`, `mid = (low + high)/2`, scored over the
analysis window.  Clusters are nonempty by construction; the empty case
(which the source never reaches) yields a degenerate zero zone. -/
def zoneFromCluster (analysisBars : List OhlcBar) : List ℚ → OcZone
  | [] => { zone_low := 0, zone_high := 0, zone_mid := 0, score := 0 }
  | h :: t =>
    let lo := t.foldl min h
    let hi := t.foldl max h
    { zone_low := lo, zone_high := hi, zone_mid := (lo + hi) / 2,
      score := zoneScore analysisBars lo hi }

/-- `findStructuralZones` from `zones.ts` with the lookback window and the
cluster radius abstracted (the source reads them from `CONFIG`; see
`findStructuralZones`).  The final sort is by score descending and stable
(JS stable sort = stable `insertionSort`), keeping the top 5. -/
def findStructuralZonesWith (lookback : ℕ) (radius : ℚ)
    (bars : List OhlcBar) : List OcZone :=
  if bars.length < lookback then []
  else
    let analysisBars := takeRight lookback bars
    let zones := (clusterPoints radius (sortedZonePoints lookback bars)).map
      (zoneFromCluster analysisBars)
    (zones.insertionSort (fun a b => b.score ≤ a.score)).take 5

/-- `findStructuralZones` from `zones.ts` (lookback `CONFIG.lookback_days`,
radius `CONFIG.oc_cluster_radius[symbol]`). -/
def findStructuralZones (bars : List OhlcBar) (symbol : SymbolCode) :
    List OcZone :=
  findStructuralZonesWith CONFIG_lookback_days (CONFIG_oc_cluster_radius symbol)
    bars

/-! ## Trade models (`models.ts`) -/

/-- Trade model tags. -/
inductive TradeModel where
  | A
  | B
  | C1
  | C2
deriving DecidableEq, Repr

/-- Trade direction. -/
inductive TradeDirection where
  | Long
  | Short
deriving DecidableEq, Repr

/-- Stop placement kind. -/
inductive StopType where
  | Swing
  | PD
deriving DecidableEq, Repr

/-- `TradeCandidate.status`; the TS type admits only `"VALID"`. -/
inductive TradeStatus where
  | VALID
deriving DecidableEq, Repr

/-- `TradeCandidate` from `types.ts`. -/
structure TradeCandidate where
  model : TradeModel
  direction : TradeDirection
  entry : ℚ
  stop : ℚ
  tp1 : ℚ
  risk_price : ℚ
  reward_price : ℚ
  rr : ℚ
  status : TradeStatus
  stopType : StopType
deriving DecidableEq, Repr

/-- The models' shared spread gate: reject when a spread cap is configured,
the latest bar carries a spread, and that spread exceeds the cap. -/
def spreadGateTriggered (spreadCap currentSpread : Option ℚ) : Bool :=
  match spreadCap, currentSpread with
  | some cap, some sp => cap < sp
  | _, _ => false

/-- Model A body for one Bull-side candidate zone (`zones.ts` swing levels,
risk cap, reward:risk gate).  JS treats a swing level or target of `0` as
missing (`if (!swingLow) continue`), hence the extra `= 0` skips. -/
def modelALongAtZone (liquidity : LiquidityMap) (symbol : SymbolCode)
    (minRR : ℚ) (zone : OcZone) : Option TradeCandidate :=
  let entry := zone.zone_mid
  match nearestBelow liquidity.lows entry with
  | none => none
  | some swingLow =>
    if swingLow = 0 then none
    else
      let stop := swingLow - CONFIG_sl_buffer symbol
      let risk := entry - stop
      if risk ≤ 0 ∨ CONFIG_risk_cap symbol < risk then none
      else
        match nearestAbove liquidity.highs entry with
        | none => none
        | some tp1 =>
          if tp1 = 0 then none
          else
            let reward := tp1 - entry
            let rr := reward / risk
            if rr < minRR then none
            else
              some { model := .A, direction := .Long, entry := entry,
                     stop := stop, tp1 := tp1, risk_price := risk,
                     reward_price := reward, rr := rr, status := .VALID,
                     stopType := .Swing }

/-- Model A body for one Bear-side candidate zone. -/
def modelAShortAtZone (liquidity : LiquidityMap) (symbol : SymbolCode)
    (minRR : ℚ) (zone : OcZone) : Option TradeCandidate :=
  let entry := zone.zone_mid
  match nearestAbove liquidity.highs entry with
  | none => none
  | some swingHigh =>
    if swingHigh = 0 then none
    else
      let stop := swingHigh + CONFIG_sl_buffer symbol
      let risk := stop - entry
      if risk ≤ 0 ∨ CONFIG_risk_cap symbol < risk then none
      else
        match nearestBelow liquidity.lows entry with
        | none => none
        | some tp1 =>
          if tp1 = 0 then none
          else
            let reward := entry - tp1
            let rr := reward / risk
            if rr < minRR then none
            else
              some { model := .A, direction := .Short, entry := entry,
                     stop := stop, tp1 := tp1, risk_price := risk,
                     reward_price := reward, rr := rr, status := .VALID,
                     stopType := .Swing }

/-- `generateModelATrades` from `models.ts`.  `minRr`/`spreadCap` are the
`options` fields (`minRr ?? CONFIG.min_rr`).  On an empty bar list the
source would fault reading the last bar's close, emitting nothing; the
embedding returns no trades there. -/
def generateModelATrades (trend : MacroTrend) (zones : List OcZone)
    (liquidity : LiquidityMap) (bars : List OhlcBar) (symbol : SymbolCode)
    (minRr : Option ℚ) (spreadCap : Option ℚ) : List TradeCandidate :=
  match bars.getLast? with
  | none => []
  | some lastBar =>
    let currentPrice := lastBar.close
    let minRR := minRr.getD CONFIG_min_rr
    if spreadGateTriggered spreadCap lastBar.spread then []
    else
      match trend with
      | .Bull => (zones.filter (fun z => z.zone_mid < currentPrice)).filterMap
          (modelALongAtZone liquidity symbol minRR)
      | .Bear => (zones.filter (fun z => currentPrice < z.zone_mid)).filterMap
          (modelAShortAtZone liquidity symbol minRR)
      | .Neutral => []

/-- Model B body for one Bull-side candidate zone (stop fixed at the prior
day's low minus the buffer). -/
def modelBLongAtZone (liquidity : LiquidityMap) (symbol : SymbolCode)
    (minRR : ℚ) (pdl : ℚ) (zone : OcZone) : Option TradeCandidate :=
  let entry := zone.zone_mid
  let stop := pdl - CONFIG_sl_buffer symbol
  let risk := entry - stop
  if risk ≤ 0 ∨ CONFIG_risk_cap symbol < risk then none
  else
    match nearestAbove liquidity.highs entry with
    | none => none
    | some tp1 =>
      if tp1 = 0 then none
      else
        let reward := tp1 - entry
        let rr := reward / risk
        if rr < minRR then none
        else
          some { model := .B, direction := .Long, entry := entry, stop := stop,
                 tp1 := tp1, risk_price := risk, reward_price := reward,
                 rr := rr, status := .VALID, stopType := .PD }

/-- Model B body for one Bear-side candidate zone (stop fixed at the prior
day's high plus the buffer). -/
def modelBShortAtZone (liquidity : LiquidityMap) (symbol : SymbolCode)
    (minRR : ℚ) (pdh : ℚ) (zone : OcZone) : Option TradeCandidate :=
  let entry := zone.zone_mid
  let stop := pdh + CONFIG_sl_buffer symbol
  let risk := stop - entry
  if risk ≤ 0 ∨ CONFIG_risk_cap symbol < risk then none
  else
    match nearestBelow liquidity.lows entry with
    | none => none
    | some tp1 =>
      if tp1 = 0 then none
      else
        let reward := entry - tp1
        let rr := reward / risk
        if rr < minRR then none
        else
          some { model := .B, direction := .Short, entry := entry, stop := stop,
                 tp1 := tp1, risk_price := risk, reward_price := reward,
                 rr := rr, status := .VALID, stopType := .PD }

/-- `generateModelBTrades` from `models.ts`. -/
def generateModelBTrades (trend : MacroTrend) (zones : List OcZone)
    (liquidity : LiquidityMap) (bars : List OhlcBar) (symbol : SymbolCode)
    (minRr : Option ℚ) (spreadCap : Option ℚ) : List TradeCandidate :=
  match bars.getLast? with
  | none => []
  | some lastBar =>
    let currentPrice := lastBar.close
    let minRR := minRr.getD CONFIG_min_rr
    if spreadGateTriggered spreadCap lastBar.spread then []
    else
      match bars[bars.length - 2]? with
      | none => []
      | some prevBar =>
        match trend with
        | .Bull => (zones.filter (fun z => z.zone_mid < currentPrice)).filterMap
            (modelBLongAtZone liquidity symbol minRR prevBar.low)
        | .Bear => (zones.filter (fun z => currentPrice < z.zone_mid)).filterMap
            (modelBShortAtZone liquidity symbol minRR prevBar.high)
        | .Neutral => []

/-- The dedup key of Model C's `maybePushTrade`
(`` `${direction}-${entry}-${stopType}` ``; distinct triples give distinct
strings). -/
abbrev ModelCKey := TradeDirection × ℚ × StopType

/-- `maybePushTrade` from `generateModelCTrades`: skip already-seen keys,
compute risk/reward/rr, apply the numeric gates, and append both the trade
and its key on success.  As in the source the gates run after `rr` is
computed; with `risk = 0` the source's `rr` is non-finite and the `risk ≤ 0`
gate drops the trade anyway, exactly as here with `ℚ` division by zero. -/
def maybePushTrade (symbol : SymbolCode) (minRR : ℚ)
    (st : List TradeCandidate × List ModelCKey) (model : TradeModel)
    (direction : TradeDirection) (entry stop tp1 : ℚ) (stopType : StopType) :
    List TradeCandidate × List ModelCKey :=
  let key : ModelCKey := (direction, entry, stopType)
  if key ∈ st.2 then st
  else
    let risk := if direction = .Long then entry - stop else stop - entry
    let reward := if direction = .Long then tp1 - entry else entry - tp1
    let rr := reward / risk
    if risk ≤ 0 ∨ CONFIG_risk_cap symbol < risk then st
    else if rr < minRR then st
    else
      (st.1 ++ [{ model := model, direction := direction, entry := entry,
                  stop := stop, tp1 := tp1, risk_price := risk,
                  reward_price := reward, rr := rr, status := .VALID,
                  stopType := stopType }],
        st.2 ++ [key])

/-- One Bull-side entry level of Model C: require the level inside the
current bar's range, find the target, then try the swing-stop (C1) and
prior-day-stop (C2) variants. -/
def modelCLongLevel (liquidity : LiquidityMap) (symbol : SymbolCode)
    (minRR : ℚ) (currentBar trendBar : OhlcBar)
    (st : List TradeCandidate × List ModelCKey) (entry : ℚ) :
    List TradeCandidate × List ModelCKey :=
  if entry < currentBar.low ∨ currentBar.high < entry then st
  else
    match nearestAbove liquidity.highs entry with
    | none => st
    | some tp1 =>
      if tp1 = 0 then st
      else
        let st1 :=
          match nearestBelow liquidity.lows entry with
          | some swingLow =>
            if swingLow = 0 then st
            else
              maybePushTrade symbol minRR st .C1 .Long entry
                (swingLow - CONFIG_sl_buffer symbol) tp1 .Swing
          | none => st
        maybePushTrade symbol minRR st1 .C2 .Long entry
          (trendBar.low - CONFIG_sl_buffer symbol) tp1 .PD

/-- One Bear-side entry level of Model C. -/
def modelCShortLevel (liquidity : LiquidityMap) (symbol : SymbolCode)
    (minRR : ℚ) (currentBar trendBar : OhlcBar)
    (st : List TradeCandidate × List ModelCKey) (entry : ℚ) :
    List TradeCandidate × List ModelCKey :=
  if currentBar.high < entry ∨ entry < currentBar.low then st
  else
    match nearestBelow liquidity.lows entry with
    | none => st
    | some tp1 =>
      if tp1 = 0 then st
      else
        let st1 :=
          match nearestAbove liquidity.highs entry with
          | some swingHigh =>
            if swingHigh = 0 then st
            else
              maybePushTrade symbol minRR st .C1 .Short entry
                (swingHigh + CONFIG_sl_buffer symbol) tp1 .Swing
          | none => st
        maybePushTrade symbol minRR st1 .C2 .Short entry
          (trendBar.high + CONFIG_sl_buffer symbol) tp1 .PD

/-- `generateModelCTrades` from `models.ts`: classify the middle of the last
three bars as a trend day relative to the oldest (both-extremes-broken ties
resolved by comparing closes), then walk the three direction-ordered entry
levels. -/
def generateModelCTrades (_trend : MacroTrend) (liquidity : LiquidityMap)
    (bars : List OhlcBar) (symbol : SymbolCode) (minRr : Option ℚ)
    (spreadCap : Option ℚ) : List TradeCandidate :=
  if bars.length < 3 then []
  else
    match takeRight 3 bars with
    | [referenceBar, trendBar, currentBar] =>
      let minRR := minRr.getD CONFIG_min_rr
      if spreadGateTriggered spreadCap currentBar.spread then []
      else
        let brokeHigh := referenceBar.high < trendBar.high
        let brokeLow := trendBar.low < referenceBar.low
        let trendDay : Option MacroTrend :=
          if brokeHigh ∧ ¬brokeLow then some .Bull
          else if brokeLow ∧ ¬brokeHigh then some .Bear
          else if brokeHigh ∧ brokeLow then
            some (if referenceBar.close ≤ trendBar.close then .Bull else .Bear)
          else none
        match trendDay with
        | none => []
        | some .Bull =>
          ([trendBar.high, trendBar.close, trendBar.low].foldl
            (modelCLongLevel liquidity symbol minRR currentBar trendBar)
            ([], [])).1
        | some _ =>
          ([trendBar.low, trendBar.close, trendBar.high].foldl
            (modelCShortLevel liquidity symbol minRR currentBar trendBar)
            ([], [])).1
    | _ => []

/-! ## Nearest-zone locator (`nearest-zone.ts`) -/

/-- Proximity classification of `NearestZoneInfo`. -/
inductive ZoneStatus where
  | AT_ZONE
  | NEAR
  | FAR
deriving DecidableEq, Repr

/-- A zone record as consumed by `computeNearestZoneInfo`, whose bounds the
source defensively re-checks with `Number.isFinite` (`none` = non-finite
field value; a `null` array slot behaves like a record with non-finite
bounds, which the source skips the same way). -/
structure OcZoneJs where
  zone_low : Option ℚ
  zone_high : Option ℚ
  zone_mid : Option ℚ
  score : ℚ
  zone_type : Option String := none
deriving DecidableEq, Repr

/-- A zone passes the scan's validity check iff both bounds are finite. -/
def zoneValid (z : OcZoneJs) : Bool :=
  z.zone_low.isSome && z.zone_high.isSome

/-- The mid used for distance: the stored `zone_mid` when finite and
nonzero, else `(zone_low + zone_high)/2`; undefined when a bound is
non-finite (the zone is skipped). -/
def effectiveMid (z : OcZoneJs) : Option ℚ :=
  match z.zone_low, z.zone_high with
  | some lo, some hi =>
    match z.zone_mid with
    | some m => if m ≠ 0 then some m else some ((lo + hi) / 2)
    | none => some ((lo + hi) / 2)
  | _, _ => none

/-- One step of the best-zone linear scan: only a strictly smaller distance
replaces the current best. -/
def nearestScanStep (spot : ℚ) (best : Option (OcZoneJs × ℚ))
    (z : OcZoneJs) : Option (OcZoneJs × ℚ) :=
  match effectiveMid z with
  | none => best
  | some mid =>
    let d := |spot - mid|
    match best with
    | none => some (z, d)
    | some (bz, bd) => if d < bd then some (z, d) else some (bz, bd)

/-- The best-zone linear scan of `computeNearestZoneInfo` (`bestZone` /
`bestDistance`). -/
def nearestScan (spot : ℚ) (zones : List OcZoneJs) : Option (OcZoneJs × ℚ) :=
  zones.foldl (nearestScanStep spot) none

/-- `NearestZoneInfo` from `types.ts` as built by `computeNearestZoneInfo`.
`distancePct` / `distanceAtr` are `none` where the source stores a
non-finite value or `null`. -/
structure NearestZoneInfo where
  spot : ℚ
  zone_low : Option ℚ
  zone_high : Option ℚ
  zone_mid : ℚ
  score : ℚ
  zone_type : Option String
  distance : ℚ
  distancePct : Option ℚ
  distanceAtr : Option ℚ
  status : ZoneStatus
deriving DecidableEq, Repr

/-- ATR-based proximity thresholds (`distance ≤ 0.1·ATR` / `≤ 0.25·ATR`,
both inclusive). -/
def classifyZoneStatusAtr (a d : ℚ) : ZoneStatus :=
  if d ≤ a / 10 then .AT_ZONE else if d ≤ a / 4 then .NEAR else .FAR

/-- Percent-distance fallback thresholds (`≤ 0.1` / `≤ 0.5` percent, both
inclusive).  A non-finite percent distance (`none`, arising from `spot = 0`)
fails both JS comparisons, leaving `FAR`. -/
def classifyZoneStatusPct (pct : Option ℚ) : ZoneStatus :=
  match pct with
  | some p => if p ≤ 1 / 10 then .AT_ZONE else if p ≤ 1 / 2 then .NEAR else .FAR
  | none => .FAR

/-- `computeNearestZoneInfo` from `nearest-zone.ts`.  `spot` and `atr20` are
`Option ℚ` (`none` = non-finite or `null`); `atr20 && atr20 > 0` reduces to
`0 < a` on a finite value and to false on `none`. -/
def computeNearestZoneInfo (zones : List OcZoneJs) (spot : Option ℚ)
    (atr20 : Option ℚ) : Option NearestZoneInfo :=
  if zones.isEmpty then none
  else
    match spot with
    | none => none
    | some s =>
      match nearestScan s zones with
      | none => none
      | some (bz, bd) =>
        match effectiveMid bz with
        | none => none
        | some mid =>
          let distancePct := if s = 0 then none else some (bd / s * 100)
          let distanceAtr :=
            match atr20 with
            | some a => if 0 < a then some (bd / a) else none
            | none => none
          let status :=
            match atr20 with
            | some a =>
              if 0 < a then classifyZoneStatusAtr a bd
              else classifyZoneStatusPct distancePct
            | none => classifyZoneStatusPct distancePct
          some { spot := s, zone_low := bz.zone_low, zone_high := bz.zone_high,
                 zone_mid := mid, score := bz.score, zone_type := bz.zone_type,
                 distance := bd, distancePct := distancePct,
                 distanceAtr := distanceAtr, status := status }

/-! ## Sweet-spot evaluator (`sweet-spot.ts`) -/

/-- Split a character list at every occurrence of `c` (the splitting pattern
of `String.prototype.split` on a single character). -/
def splitOnChar (c : Char) : List Char → List (List Char)
  | [] => [[]]
  | x :: xs =>
    if x = c then [] :: splitOnChar c xs
    else
      match splitOnChar c xs with
      | [] => [[x]]
      | h :: t => (x :: h) :: t

/-- Numeric value of a digit run. -/
def digitsVal (ds : List Char) : ℕ :=
  ds.foldl (fun n d => 10 * n + (d.toNat - 48)) 0

/-- JS `Number.parseFloat` restricted to plain decimal notation (optional
sign, integer digits, optional fraction), parsing the longest valid numeric
lead of the string and returning `none` (`NaN`) when no digit is found.
Exponent notation never occurs in the bucket labels this program parses and
is not modelled. -/
def jsParseFloat (s : String) : Option ℚ :=
  let cs := s.data
  let signNeg : Bool := match cs with
    | c :: _ => c = '-'
    | [] => false
  let body : List Char := match cs with
    | c :: rest => if c = '-' ∨ c = '+' then rest else cs
    | [] => []
  let intDigits := body.takeWhile Char.isDigit
  let afterInt := body.drop intDigits.length
  let fracDigits : List Char :=
    match afterInt with
    | c :: rest => if c = '.' then rest.takeWhile Char.isDigit else []
    | [] => []
  if intDigits.isEmpty ∧ fracDigits.isEmpty then none
  else
    let magnitude : ℚ :=
      (digitsVal intDigits : ℚ) + (digitsVal fracDigits : ℚ) / 10 ^ fracDigits.length
    some (if signNeg then -magnitude else magnitude)

/-- `parseBucketRange` from `sweet-spot.ts`.  A label containing `+` maps to
`{min = parseFloat(text before the +), max = 1}`; otherwise the label must
split into exactly two parseable halves on `-` (the source's split pattern
also includes three mojibake en-dash characters, none of which occur in any
bucket label this program produces). -/
def parseBucketRange (bucket : Option String) : Option (ℚ × ℚ) :=
  match bucket with
  | none => none
  | some b =>
    if b = "" then none
    else if b.data.contains '+' then
      match jsParseFloat (String.mk (b.data.takeWhile (fun c => c ≠ '+'))) with
      | some mn => some (mn, 1)
      | none => none
    else
      match splitOnChar '-' b.data with
      | [x, y] =>
        match jsParseFloat (String.mk x), jsParseFloat (String.mk y) with
        | some mn, some mx => some (mn, mx)
        | _, _ => none
      | _ => none

/-- `bucketsAlign` from `sweet-spot.ts`: equal labels align; otherwise both
must parse and their `[min, max]` ranges must intersect. -/
def bucketsAlign (currentBucket dominantBucket : Option String) : Bool :=
  match currentBucket, dominantBucket with
  | some c, some d =>
    if c = "" ∨ d = "" then false
    else if c = d then true
    else
      match parseBucketRange (some c), parseBucketRange (some d) with
      | some cr, some dr => decide (cr.1 ≤ dr.2 ∧ dr.1 ≤ cr.2)
      | _, _ => false
  | _, _ => false

/-- `MEAN_TOLERANCE` from `sweet-spot.ts` (`0.05`). -/
def MEAN_TOLERANCE : ℚ := 1 / 20

/-- The `pullbackDepth` field of `SweetSpotContext`. -/
structure PullbackDepthCtx where
  pct : Option ℚ
  bucket : Option String
deriving DecidableEq, Repr

/-- The `typicalPullback` field of `SweetSpotContext`. -/
structure TypicalPullbackCtx where
  meanPct : Option ℚ
  dominantBucket : Option String := none
deriving DecidableEq, Repr

/-- `SweetSpotContext` from `sweet-spot.ts` (the fields the function reads;
`trend` is carried but unused by the function body, as in the source). -/
structure SweetSpotContext where
  trend : MacroTrend
  pullbackDepth : Option PullbackDepthCtx := none
  typicalPullback : Option TypicalPullbackCtx := none
  nearestZone : Option NearestZoneInfo := none

/-- `SweetSpotSignal` from `sweet-spot.ts`. -/
structure SweetSpotSignal where
  isSweetSpot : Bool
  reason : Option String
deriving DecidableEq, Repr

/-- `evaluateSweetSpot` from `sweet-spot.ts`: the three gates in order
(zone proximity, depth availability, bucket alignment or mean closeness). -/
def evaluateSweetSpot (ctx : SweetSpotContext) : SweetSpotSignal :=
  let zoneOk : Bool :=
    match ctx.nearestZone with
    | some nz => nz.status = ZoneStatus.AT_ZONE ∨ nz.status = ZoneStatus.NEAR
    | none => false
  if ¬zoneOk then
    { isSweetSpot := false,
      reason := some "Price is not at or near a structural zone." }
  else
    let pullbackPct := ctx.pullbackDepth.bind PullbackDepthCtx.pct
    let pullbackBucket := ctx.pullbackDepth.bind PullbackDepthCtx.bucket
    match pullbackPct with
    | none =>
      { isSweetSpot := false,
        reason := some "Pullback depth unavailable for current session." }
    | some pct =>
      let aligned := bucketsAlign pullbackBucket
        (ctx.typicalPullback.bind TypicalPullbackCtx.dominantBucket)
      let meanClose : Bool :=
        match ctx.typicalPullback.bind TypicalPullbackCtx.meanPct with
        | some m => |pct - m| ≤ MEAN_TOLERANCE
        | none => false
      if aligned ∨ meanClose then
        { isSweetSpot := true,
          reason :=
            some "Pullback aligns with historical behaviour and price is near zone." }
      else
        { isSweetSpot := false,
          reason := some "Current pullback does not align with historical sweet spot." }

/-! ## Scan orchestrator (`scan.ts`, the modern `scanSymbol`/`scanMarket`) -/

/-- The window fields the modern `scanSymbol` reads from the global `CONFIG`.
Modelled from the spec: the modern `types.ts` CONFIG module (with
`pullback_history_window`) is not among the repository sources, only its
consumers; the spec describes it as "Configurable windows with fallbacks
(`options?.params ?? CONFIG.default`)", so the defaults are abstracted as an
explicit configuration value. -/
structure ScanConfig where
  lookback_days : ℕ
  trend_lookback : ℕ
  pullback_history_window : ℕ
deriving DecidableEq, Repr

/-- The `params` object of `ScanOptions` (per-request window overrides). -/
structure ScanOptionParams where
  structureLookback : Option ℕ := none
  trendLookback : Option ℕ := none
  atrWindow : Option ℕ := none
  pullbackWindow : Option ℕ := none
deriving DecidableEq, Repr

/-- The `ScanOptions` fields `scanSymbol` reads. -/
structure ScanOptions where
  params : ScanOptionParams := {}
  minRr : Option ℚ := none
  spreadCap : Option ℚ := none
deriving DecidableEq, Repr

/-- `lookbackDays` as resolved by `scanSymbol` (floor 1). -/
def resolvedLookbackDays (cfg : ScanConfig) (opts : ScanOptions) : ℕ :=
  max 1 (opts.params.structureLookback.getD cfg.lookback_days)

/-- `trendLookback` as resolved by `scanSymbol` (floor 1). -/
def resolvedTrendLookback (cfg : ScanConfig) (opts : ScanOptions) : ℕ :=
  max 1 (opts.params.trendLookback.getD cfg.trend_lookback)

/-- `atrWindow` as resolved by `scanSymbol` (floor 2, default 20). -/
def resolvedAtrWindow (opts : ScanOptions) : ℕ :=
  max 2 (opts.params.atrWindow.getD 20)

/-- `pullbackWindow` as resolved by `scanSymbol` (floor 2). -/
def resolvedPullbackWindow (cfg : ScanConfig) (opts : ScanOptions) : ℕ :=
  max 2 (opts.params.pullbackWindow.getD cfg.pullback_history_window)

/-- `neededBars`: the maximum bar count any sub-analysis requires. -/
def neededBars (cfg : ScanConfig) (opts : ScanOptions) : ℕ :=
  max (max (resolvedLookbackDays cfg opts) (resolvedAtrWindow opts + 1))
    (max (resolvedPullbackWindow cfg opts + 1)
      (resolvedTrendLookback cfg opts + 1))

/-- The display name of a symbol (used in the insufficient-data message). -/
def symbolCodeName : SymbolCode → String
  | .XAUUSD => "XAUUSD"
  | .EURUSD => "EURUSD"
  | .GBPJPY => "GBPJPY"
  | .GBPUSD => "GBPUSD"

/-- The per-symbol payload carried by a successful scan.  Claim C9 is about
the orchestration (one entry per requested symbol, per-symbol failure
isolation), which is independent of the analytical payload, so only a
representative portion of the `kind: "ok"` result is carried here. -/
structure SymbolScanOk where
  symbol : SymbolCode
  lastClose : ℚ
  trendCore : TrendCore
deriving DecidableEq, Repr

/-- `scanSymbol` from the modern scan module, as a fallible computation:
resolve the windows, compute `neededBars`, fetch that many bars from the
external bar source, and fail with the insufficient-data message when fewer
arrive.  (`getBars` abstracts `getDailyOhlc`.) -/
def scanSymbolE (cfg : ScanConfig) (getBars : SymbolCode → ℕ → List OhlcBar)
    (opts : ScanOptions) (symbol : SymbolCode) : Except String SymbolScanOk :=
  let need := neededBars cfg opts
  let bars := getBars symbol need
  if bars.length < need then
    .error ("Insufficient data for " ++ symbolCodeName symbol ++ ": got "
      ++ toString bars.length ++ ", need " ++ toString need)
  else
    .ok { symbol := symbol, lastClose := ((bars.getLast?).map OhlcBar.close).getD 0,
          trendCore := classifyTrend bars (resolvedTrendLookback cfg opts) }

/-- `SymbolScanEntry`: the tagged union of a successful per-symbol result and
a per-symbol failure with message. -/
inductive SymbolScanEntry (R : Type) where
  | ok (symbol : SymbolCode) (result : R)
  | error (symbol : SymbolCode) (message : String)
deriving DecidableEq

/-- The entry `scanMarket` records for one symbol: the `try`/`catch` around
`scanSymbol` that converts a failure into an error entry. -/
def scanEntryOf (scanOne : SymbolCode → Except String R) (s : SymbolCode) :
    SymbolScanEntry R :=
  match scanOne s with
  | .ok r => .ok s r
  | .error m => .error s m

/-- The `scanEntries` list of `scanMarket`: one entry per requested symbol,
in request order (`Promise.all` keeps positional order). -/
def scanMarketEntries (scanOne : SymbolCode → Except String R)
    (symbols : List SymbolCode) : List (SymbolCode × SymbolScanEntry R) :=
  symbols.map (fun s => (s, scanEntryOf scanOne s))

/-- The `results` record of `scanMarket`: the entries keyed by symbol (later
assignments to the same key overwrite, as in a JS object). -/
def scanMarketResults (scanOne : SymbolCode → Except String R)
    (symbols : List SymbolCode) : SymbolCode → Option (SymbolScanEntry R) :=
  (scanMarketEntries scanOne symbols).foldl
    (fun m e => Function.update m e.1 (some e.2)) (fun _ => none)

/-- Whether an entry is a success entry. -/
def entryIsOk : SymbolScanEntry R → Bool
  | .ok _ _ => true
  | .error _ _ => false

/-! ## Concrete example inputs used by counterexamples and witnesses -/

/-- The numeric `[min, max]` range of each bucket label, as
`parseBucketRange` computes it on the six labels the program produces. -/
def bucketNumericRange : PullbackBucket → ℚ × ℚ
  | .d000_382 => (0, 382/1000)
  | .d382_500 => (382/1000, 5/10)
  | .d500_618 => (5/10, 618/1000)
  | .d618_786 => (618/1000, 786/1000)
  | .d786_100 => (786/1000, 1)
  | .d100plus => (1, 1)

/-- Example bar 0: a 10-to-0 session closing at 5. -/
def pbBar0 : OhlcBar := { date := "d0", openP := 5, high := 10, low := 0, close := 5 }

/-- Example bar 1: breaks bar 0's high and closes above it (Bull trend day). -/
def pbBar1 : OhlcBar := { date := "d1", openP := 8, high := 20, low := 5, close := 15 }

/-- Example bar 2: breaks bar 1's high and closes above it (Bull trend day);
range 30–20. -/
def pbBar2 : OhlcBar := { date := "d2", openP := 21, high := 30, low := 20, close := 25 }

/-- Example retrace bar: 25–22, entirely inside bar 2's range except the top. -/
def pbBar3 : OhlcBar := { date := "d3", openP := 23, high := 25, low := 22, close := 24 }

/-- A variant retrace bar with different OHLC on the same date. -/
def pbBar3Alt : OhlcBar := { date := "d3", openP := 24, high := 26, low := 21, close := 23 }

/-- A four-bar Bull history whose last pair is a pullback record. -/
def pbBars : List OhlcBar := [pbBar0, pbBar1, pbBar2, pbBar3]

/-- The same history with only the retrace bar's OHLC changed. -/
def pbBarsAlt : List OhlcBar := [pbBar0, pbBar1, pbBar2, pbBar3Alt]

/-- The record `buildCandlePairPullbacks` produces for `pbBars` with
`trendLookback = 2`, `lookbackDays = 2`. -/
def pbRecord : CandlePairPullbackRecord :=
  { symbol := .XAUUSD, prevIndex := 2, currIndex := 3,
    datePrev := "d2", dateCurr := "d3",
    prevHigh := 30, prevLow := 20, currHigh := 25, currLow := 22,
    scenario := { macroTrendPrev := .Bull, trendDayPrev := .Bull,
                  alignmentPrev := .AlignedLong },
    depthIntoPrevPct := 4/5, bucket := .d786_100 }

/-- The record `buildCandlePairPullbacks` produces for `pbBarsAlt`. -/
def pbRecordAlt : CandlePairPullbackRecord :=
  { symbol := .XAUUSD, prevIndex := 2, currIndex := 3,
    datePrev := "d2", dateCurr := "d3",
    prevHigh := 30, prevLow := 20, currHigh := 26, currLow := 21,
    scenario := { macroTrendPrev := .Bull, trendDayPrev := .Bull,
                  alignmentPrev := .AlignedLong },
    depthIntoPrevPct := 9/10, bucket := .d786_100 }

/-- Example zone for the Model A reward:risk boundary check (mid 90). -/
def exZoneA : OcZone := { zone_low := 88, zone_high := 92, zone_mid := 90, score := 5 }

/-- Liquidity giving risk 5 (swing low 87, stop 85) and reward 10 (target
100): reward:risk exactly 2.0. -/
def exLiqKeep : LiquidityMap := { highs := [100], lows := [87] }

/-- Liquidity giving risk 5 and reward 9 (target 99): reward:risk 1.8. -/
def exLiqDrop : LiquidityMap := { highs := [99], lows := [87] }

/-- Current bar closing at 95 (above the example zone's mid). -/
def exBarA : OhlcBar := { date := "d", openP := 94, high := 96, low := 93, close := 95 }

/-- The Model A trade kept at the inclusive reward:risk boundary
(risk 5, reward 10, rr exactly 2.0). -/
def exBoundaryTrade : TradeCandidate :=
  { model := .A, direction := .Long, entry := 90, stop := 85, tp1 := 100,
    risk_price := 5, reward_price := 10, rr := 2, status := .VALID,
    stopType := .Swing }

/-- Example scan configuration for the batch-isolation scenario. -/
def exScanConfig : ScanConfig :=
  { lookback_days := 20, trend_lookback := 10, pullback_history_window := 10 }

/-- Example scan options overriding every window to its floor
(`neededBars` resolves to 3). -/
def exScanOptions : ScanOptions :=
  { params := { structureLookback := some 1, trendLookback := some 1,
                atrWindow := some 2, pullbackWindow := some 2 } }

/-- A bar source failing (returning no bars) for EURUSD only. -/
def exGetBars : SymbolCode → ℕ → List OhlcBar :=
  fun s n => if s = .EURUSD then [] else List.replicate n pbBar0

/-- All four configured symbols. -/
def allSymbols : List SymbolCode := [.XAUUSD, .EURUSD, .GBPJPY, .GBPUSD]

/-- Single bar whose open (100) and close (105) cluster apart at radius
0.5. -/
def exZoneBar : OhlcBar :=
  { date := "z", openP := 100, high := 106, low := 99, close := 105 }

/-- The higher-scored zone `findStructuralZonesWith 1 (1/2) [exZoneBar]`
returns (the close). -/
def exZoneHigh : OcZone :=
  { zone_low := 105, zone_high := 105, zone_mid := 105, score := 2 }

/-- The lower-scored zone of the same run (the open). -/
def exZoneLow : OcZone :=
  { zone_low := 100, zone_high := 100, zone_mid := 100, score := 1 }

/-- Example nearest-zone input (the repository's own test zone 95–105). -/
def exZoneJs : OcZoneJs :=
  { zone_low := some 95, zone_high := some 105, zone_mid := some 100, score := 1 }

/-- Example nearest-zone result: spot at the zone mid, ATR 10. -/
def exNearestInfo : NearestZoneInfo :=
  { spot := 100, zone_low := some 95, zone_high := some 105, zone_mid := 100,
    score := 1, zone_type := none, distance := 0, distancePct := some 0,
    distanceAtr := some 0, status := .AT_ZONE }

/-- Example sweet-spot context: at zone, depth 0.45 in bucket
`"0.382-0.5"`, dominant historical bucket `"0.5-0.618"` (adjacent ranges
intersect at 0.5), historical mean 0.6. -/
def exSweetCtx : SweetSpotContext :=
  { trend := .Bull,
    pullbackDepth := some { pct := some (45/100), bucket := some "0.382-0.5" },
    typicalPullback := some { meanPct := some (6/10),
                              dominantBucket := some "0.5-0.618" },
    nearestZone := some exNearestInfo }

/-! ## Helper lemmas -/

/-- Anatomy of a historical pullback record: each record produced by
`buildCandlePairPullbacks` carries the OHLC of its own bar pair, the
scenario of the history up to and including the prior bar, and the depth
computed by `computeDepthIntoPrevious`. -/
theorem mem_buildCandlePairPullbacks_eq {sym : SymbolCode} {bars : List OhlcBar}
    {tl ld : ℕ} {r : CandlePairPullbackRecord}
    (h : r ∈ buildCandlePairPullbacks sym bars tl ld) :
    ∃ prev curr,
      bars[r.currIndex - 1]? = some prev ∧ bars[r.currIndex]? = some curr ∧
      r.prevIndex = r.currIndex - 1 ∧
      r.scenario = scenarioKeyOf (bars.take r.currIndex) tl ∧
      r.prevHigh = prev.high ∧ r.prevLow = prev.low ∧
      r.currHigh = curr.high ∧ r.currLow = curr.low ∧
      computeDepthIntoPrevious prev curr r.scenario.macroTrendPrev
          = some r.depthIntoPrevPct ∧
      r.bucket = classifyPullbackBucket r.depthIntoPrevPct := by
  unfold buildCandlePairPullbacks at h
  split at h
  · simp at h
  rw [List.mem_filterMap] at h
  obtain ⟨i, _, hf⟩ := h
  split at hf
  · simp at hf
  unfold buildPullbackRecordAt at hf
  split at hf
  case _ prev curr hprev hcurr =>
    dsimp only at hf
    split at hf
    · simp at hf
    case _ depth hdepth =>
      rw [Option.some_inj] at hf
      subst hf
      exact ⟨prev, curr, hprev, hcurr, rfl, rfl, rfl, rfl, rfl, rfl, hdepth, rfl⟩
  · simp at hf

/-! ## Claim C1: live pullback depth -/

/-- C1.  For finite inputs with a positive prior range, the live pullback
depth under a Bull macro trend is `(priorHigh − price)/(priorHigh −
priorLow)` clamped below at 0 and never clamped above 1 (Bear symmetric);
the overshoot example `priorHigh = 110, priorLow = 100, price = 85` yields
depth 2.5, and `classifyPullbackBucket` sends every depth ≥ 1.0 to the
`"1.0+"` bucket; the function returns `null` when the macro trend is
Neutral, when the prior range is ≤ 0, and when any input is non-finite. -/
theorem c1_live_pullback_depth :
    (∀ ph pl p : ℚ, 0 < ph - pl →
      computeLivePullbackIntoPrev (some ph) (some pl) (some p) .Bull
          = some (max 0 ((ph - p) / (ph - pl))) ∧
      computeLivePullbackIntoPrev (some ph) (some pl) (some p) .Bear
          = some (max 0 ((p - pl) / (ph - pl)))) ∧
    (computeLivePullbackIntoPrev (some 110) (some 100) (some 85) .Bull
        = some (5/2) ∧
      classifyPullbackBucket (5/2) = .d100plus) ∧
    (∀ d : ℚ, 1 ≤ d → classifyPullbackBucket d = .d100plus) ∧
    (∀ ph pl p, computeLivePullbackIntoPrev ph pl p .Neutral = none) ∧
    (∀ ph pl p : ℚ, ∀ mt, ph - pl ≤ 0 →
      computeLivePullbackIntoPrev (some ph) (some pl) (some p) mt = none) ∧
    (∀ ph pl p mt, ph = none ∨ pl = none ∨ p = none →
      computeLivePullbackIntoPrev ph pl p mt = none) := by
  refine ⟨?_, ?_, ?_, ?_, ?_, ?_⟩
  · intro ph pl p hrange
    have hr : ¬(ph - pl ≤ 0) := by linarith
    constructor <;> simp only [computeLivePullbackIntoPrev, if_neg hr]
  · constructor
    · with_unfolding_all decide
    · with_unfolding_all decide
  · intro d hd
    unfold classifyPullbackBucket
    rw [if_neg (not_lt.mpr (by linarith)), if_neg (not_lt.mpr (by linarith)),
      if_neg (not_lt.mpr (by linarith)), if_neg (not_lt.mpr (by linarith)),
      if_neg (not_lt.mpr (by linarith))]
  · intro ph pl p
    cases p <;> cases ph <;> cases pl
    all_goals
      first
      | rfl
      | (simp only [computeLivePullbackIntoPrev]; split <;> rfl)
  · intro ph pl p mt h
    simp only [computeLivePullbackIntoPrev]
    rw [if_pos h]
  · intro ph pl p mt h
    rcases h with rfl | rfl | rfl
    · cases pl <;> cases p <;> rfl
    · cases ph <;> cases p <;> rfl
    · cases ph <;> cases pl <;> rfl

/-- Witness for C1 at the spec's overshoot example. -/
theorem c1_live_pullback_depth_witness :
    (0:ℚ) < 110 - 100 ∧
    computeLivePullbackIntoPrev (some 110) (some 100) (some 85) .Bull
        = some (max 0 ((110 - 85) / (110 - 100))) ∧
    (1:ℚ) ≤ 5/2 ∧ classifyPullbackBucket (5/2) = .d100plus ∧
    (110:ℚ) - 120 ≤ 0 ∧
    computeLivePullbackIntoPrev (some 110) (some 120) (some 85) .Bull = none :=
  ⟨by norm_num, (c1_live_pullback_depth.1 110 100 85 (by norm_num)).1,
    by norm_num, c1_live_pullback_depth.2.2.1 (5/2) (by norm_num), by norm_num,
    c1_live_pullback_depth.2.2.2.2.1 110 120 85 .Bull (by norm_num)⟩

/-! ## Claim C2: historical depth formula -/

/-- C2 counterexample.  The historical analyzer does not use the spec's
overlap-plus-overshoot formula: for the record built from the pair
(high 30 / low 20, high 25 / low 22) under a Bull macro trend the code
records `(30 − 22)/10 = 0.8`, while overlap-plus-overshoot gives
`(3 + 0)/10 = 0.3`. -/
theorem c2_overlap_overshoot_counterexample :
    ∃ r ∈ buildCandlePairPullbacks .XAUUSD pbBars 2 2,
      r.depthIntoPrevPct ≠
        specOverlapOvershootDepth r.prevHigh r.prevLow r.currHigh r.currLow := by
  with_unfolding_all decide

/-- C2 amended.  Every record of the historical pullback analyzer has a
non-Neutral prior macro trend, a prior range above `TINY_RANGE`, and depth
`max 0 ((prevHigh − currLow)/range)` under a Bull macro trend and
`max 0 ((currHigh − prevLow)/range)` under Bear — the same one-sided
formula as the live depth, not the overlap-plus-overshoot formula. -/
theorem c2_recorded_depth_formula :
    ∀ (sym : SymbolCode) (bars : List OhlcBar) (tl ld : ℕ)
      (r : CandlePairPullbackRecord),
      r ∈ buildCandlePairPullbacks sym bars tl ld →
      r.scenario.macroTrendPrev ≠ .Neutral ∧
      TINY_RANGE < r.prevHigh - r.prevLow ∧
      r.depthIntoPrevPct =
        (if r.scenario.macroTrendPrev = .Bull
          then max 0 ((r.prevHigh - r.currLow) / (r.prevHigh - r.prevLow))
          else max 0 ((r.currHigh - r.prevLow) / (r.prevHigh - r.prevLow))) := by
  intro sym bars tl ld r h
  obtain ⟨prev, curr, -, -, -, -, hph, hpl, hch, hcl, hdepth, -⟩ :=
    mem_buildCandlePairPullbacks_eq h
  rw [hph, hpl, hch, hcl]
  unfold computeDepthIntoPrevious at hdepth
  dsimp only at hdepth
  by_cases hr : prev.high - prev.low ≤ TINY_RANGE
  · rw [if_pos hr] at hdepth
    exact absurd hdepth (by simp)
  · rw [if_neg hr] at hdepth
    refine ⟨?_, not_le.mp hr, ?_⟩
    · intro hmt
      rw [hmt] at hdepth
      simp at hdepth
    · cases hmt : r.scenario.macroTrendPrev with
      | Bull =>
        rw [hmt] at hdepth
        rw [if_pos rfl]
        exact (Option.some_inj.mp hdepth).symm
      | Bear =>
        rw [hmt] at hdepth
        rw [if_neg (by simp)]
        exact (Option.some_inj.mp hdepth).symm
      | Neutral =>
        rw [hmt] at hdepth
        simp at hdepth

/-- Witness for the amended C2 at the concrete record of `pbBars`. -/
theorem c2_recorded_depth_formula_witness :
    pbRecord ∈ buildCandlePairPullbacks .XAUUSD pbBars 2 2 ∧
    (pbRecord.scenario.macroTrendPrev ≠ .Neutral ∧
      TINY_RANGE < pbRecord.prevHigh - pbRecord.prevLow ∧
      pbRecord.depthIntoPrevPct =
        (if pbRecord.scenario.macroTrendPrev = .Bull
          then max 0
            ((pbRecord.prevHigh - pbRecord.currLow)
              / (pbRecord.prevHigh - pbRecord.prevLow))
          else max 0
            ((pbRecord.currHigh - pbRecord.prevLow)
              / (pbRecord.prevHigh - pbRecord.prevLow)))) :=
  have hm : pbRecord ∈ buildCandlePairPullbacks .XAUUSD pbBars 2 2 := by
    with_unfolding_all decide
  ⟨hm, c2_recorded_depth_formula .XAUUSD pbBars 2 2 pbRecord hm⟩

/-! ## Claim C3: scenario never leaks the retrace bar -/

/-- C3.  The scenario key of a historical pullback record depends only on
the bars strictly before the retrace bar: for two histories agreeing up to
and including the prior bar, records with the same retrace index carry the
same scenario key. -/
theorem c3_scenario_ignores_retrace_bar :
    ∀ (sym : SymbolCode) (bars₁ bars₂ : List OhlcBar) (tl ld i : ℕ)
      (r₁ r₂ : CandlePairPullbackRecord),
      bars₁.take i = bars₂.take i →
      r₁ ∈ buildCandlePairPullbacks sym bars₁ tl ld →
      r₂ ∈ buildCandlePairPullbacks sym bars₂ tl ld →
      r₁.currIndex = i → r₂.currIndex = i →
      r₁.scenario = r₂.scenario := by
  intro sym bars₁ bars₂ tl ld i r₁ r₂ htake h1 h2 hi1 hi2
  obtain ⟨-, -, -, -, -, hs1, -⟩ := mem_buildCandlePairPullbacks_eq h1
  obtain ⟨-, -, -, -, -, hs2, -⟩ := mem_buildCandlePairPullbacks_eq h2
  rw [hs1, hs2, hi1, hi2, htake]

/-- Witness for C3: the two example histories differ only in the retrace
bar's OHLC and their records' scenario keys coincide. -/
theorem c3_scenario_ignores_retrace_bar_witness :
    pbBars.take 3 = pbBarsAlt.take 3 ∧
    pbRecord ∈ buildCandlePairPullbacks .XAUUSD pbBars 2 2 ∧
    pbRecordAlt ∈ buildCandlePairPullbacks .XAUUSD pbBarsAlt 2 2 ∧
    pbRecord.currIndex = 3 ∧ pbRecordAlt.currIndex = 3 ∧
    pbRecord.scenario = pbRecordAlt.scenario :=
  have htake : pbBars.take 3 = pbBarsAlt.take 3 := by with_unfolding_all decide
  have h1 : pbRecord ∈ buildCandlePairPullbacks .XAUUSD pbBars 2 2 := by
    with_unfolding_all decide
  have h2 : pbRecordAlt ∈ buildCandlePairPullbacks .XAUUSD pbBarsAlt 2 2 := by
    with_unfolding_all decide
  ⟨htake, h1, h2, rfl, rfl,
    c3_scenario_ignores_retrace_bar .XAUUSD pbBars pbBarsAlt 2 2 3 pbRecord
      pbRecordAlt htake h1 h2 rfl rfl⟩

/-! ## Claim C8: macro-trend dominance rule -/

/-- C8.  `computeMacroTrend` classifies Bull exactly when the Bull trend-day
count is at least 60% of the non-Neutral trend days and strictly exceeds the
Bear count (Bear symmetric), and returns Neutral when the window has no
non-Neutral trend day. -/
theorem c8_macro_trend_dominance :
    ∀ (bars : List OhlcBar) (tl : ℕ),
      ((computeMacroTrend bars tl).1 = .Bull ↔
        0 < bullTrendDayCount bars tl + bearTrendDayCount bars tl ∧
        3 * (bullTrendDayCount bars tl + bearTrendDayCount bars tl)
            ≤ 5 * bullTrendDayCount bars tl ∧
        bearTrendDayCount bars tl < bullTrendDayCount bars tl) ∧
      ((computeMacroTrend bars tl).1 = .Bear ↔
        0 < bullTrendDayCount bars tl + bearTrendDayCount bars tl ∧
        3 * (bullTrendDayCount bars tl + bearTrendDayCount bars tl)
            ≤ 5 * bearTrendDayCount bars tl ∧
        bullTrendDayCount bars tl < bearTrendDayCount bars tl) ∧
      (bullTrendDayCount bars tl + bearTrendDayCount bars tl = 0 →
        (computeMacroTrend bars tl).1 = .Neutral) := by
  intro bars tl
  unfold computeMacroTrend
  set b := bullTrendDayCount bars tl with hb
  set e := bearTrendDayCount bars tl with he
  dsimp only
  by_cases h0 : b + e = 0
  · rw [if_pos h0]
    refine ⟨?_, ?_, fun _ => rfl⟩ <;> simp <;> omega
  · rw [if_neg h0]
    split_ifs with h1 h2
    · refine ⟨?_, ?_, fun hc => absurd hc h0⟩ <;> simp <;> omega
    · refine ⟨?_, ?_, fun hc => absurd hc h0⟩ <;> simp <;> omega
    · refine ⟨?_, ?_, fun hc => absurd hc h0⟩ <;> simp <;> omega

/-- Witness for C8: the example history classifies Bull via the dominance
characterisation. -/
theorem c8_macro_trend_dominance_witness :
    (computeMacroTrend pbBars 2).1 = .Bull :=
  (c8_macro_trend_dominance pbBars 2).1.mpr (by with_unfolding_all decide)

/-! ## Claim C5: trade-candidate numeric gates -/

/-- Any trade Model A emits for a Bull-side zone passes the numeric gates. -/
theorem modelALongAtZone_gates {liq : LiquidityMap} {sym : SymbolCode}
    {minRR : ℚ} {zone : OcZone} {t : TradeCandidate}
    (h : modelALongAtZone liq sym minRR zone = some t) :
    t.status = .VALID ∧ 0 < t.risk_price ∧
    t.risk_price ≤ CONFIG_risk_cap sym ∧ minRR ≤ t.rr := by
  unfold modelALongAtZone at h
  dsimp only at h
  split at h
  · exact absurd h (by simp)
  next swingLow heq =>
    split at h
    · exact absurd h (by simp)
    next hsw0 =>
      split at h
      · exact absurd h (by simp)
      next hrisk =>
        split at h
        · exact absurd h (by simp)
        next tp1 heq2 =>
          split at h
          · exact absurd h (by simp)
          next htp0 =>
            split at h
            · exact absurd h (by simp)
            next hrr =>
              rw [Option.some_inj] at h
              subst h
              push_neg at hrisk
              exact ⟨rfl, hrisk.1, hrisk.2, not_lt.mp hrr⟩

/-- Any trade Model A emits for a Bear-side zone passes the numeric gates. -/
theorem modelAShortAtZone_gates {liq : LiquidityMap} {sym : SymbolCode}
    {minRR : ℚ} {zone : OcZone} {t : TradeCandidate}
    (h : modelAShortAtZone liq sym minRR zone = some t) :
    t.status = .VALID ∧ 0 < t.risk_price ∧
    t.risk_price ≤ CONFIG_risk_cap sym ∧ minRR ≤ t.rr := by
  unfold modelAShortAtZone at h
  dsimp only at h
  split at h
  · exact absurd h (by simp)
  next swingHigh heq =>
    split at h
    · exact absurd h (by simp)
    next hsw0 =>
      split at h
      · exact absurd h (by simp)
      next hrisk =>
        split at h
        · exact absurd h (by simp)
        next tp1 heq2 =>
          split at h
          · exact absurd h (by simp)
          next htp0 =>
            split at h
            · exact absurd h (by simp)
            next hrr =>
              rw [Option.some_inj] at h
              subst h
              push_neg at hrisk
              exact ⟨rfl, hrisk.1, hrisk.2, not_lt.mp hrr⟩

/-- Any trade Model B emits for a Bull-side zone passes the numeric gates. -/
theorem modelBLongAtZone_gates {liq : LiquidityMap} {sym : SymbolCode}
    {minRR pdl : ℚ} {zone : OcZone} {t : TradeCandidate}
    (h : modelBLongAtZone liq sym minRR pdl zone = some t) :
    t.status = .VALID ∧ 0 < t.risk_price ∧
    t.risk_price ≤ CONFIG_risk_cap sym ∧ minRR ≤ t.rr := by
  unfold modelBLongAtZone at h
  dsimp only at h
  split at h
  · exact absurd h (by simp)
  next hrisk =>
    split at h
    · exact absurd h (by simp)
    next tp1 heq2 =>
      split at h
      · exact absurd h (by simp)
      next htp0 =>
        split at h
        · exact absurd h (by simp)
        next hrr =>
          rw [Option.some_inj] at h
          subst h
          push_neg at hrisk
          exact ⟨rfl, hrisk.1, hrisk.2, not_lt.mp hrr⟩

/-- Any trade Model B emits for a Bear-side zone passes the numeric gates. -/
theorem modelBShortAtZone_gates {liq : LiquidityMap} {sym : SymbolCode}
    {minRR pdh : ℚ} {zone : OcZone} {t : TradeCandidate}
    (h : modelBShortAtZone liq sym minRR pdh zone = some t) :
    t.status = .VALID ∧ 0 < t.risk_price ∧
    t.risk_price ≤ CONFIG_risk_cap sym ∧ minRR ≤ t.rr := by
  unfold modelBShortAtZone at h
  dsimp only at h
  split at h
  · exact absurd h (by simp)
  next hrisk =>
    split at h
    · exact absurd h (by simp)
    next tp1 heq2 =>
      split at h
      · exact absurd h (by simp)
      next htp0 =>
        split at h
        · exact absurd h (by simp)
        next hrr =>
          rw [Option.some_inj] at h
          subst h
          push_neg at hrisk
          exact ⟨rfl, hrisk.1, hrisk.2, not_lt.mp hrr⟩

/-- `maybePushTrade` preserves the numeric-gate invariant of the trade
accumulator. -/
theorem maybePushTrade_gates {sym : SymbolCode} {minRR : ℚ}
    {st : List TradeCandidate × List ModelCKey} {model : TradeModel}
    {dir : TradeDirection} {entry stop tp1 : ℚ} {stopType : StopType}
    (hst : ∀ u ∈ st.1,
      u.status = .VALID ∧ 0 < u.risk_price ∧
      u.risk_price ≤ CONFIG_risk_cap sym ∧ minRR ≤ u.rr) :
    ∀ u ∈ (maybePushTrade sym minRR st model dir entry stop tp1 stopType).1,
      u.status = .VALID ∧ 0 < u.risk_price ∧
      u.risk_price ≤ CONFIG_risk_cap sym ∧ minRR ≤ u.rr := by
  intro u hu
  unfold maybePushTrade at hu
  dsimp only at hu
  by_cases hkey : (dir, entry, stopType) ∈ st.2
  · rw [if_pos hkey] at hu
    exact hst u hu
  rw [if_neg hkey] at hu
  set risk := if dir = .Long then entry - stop else stop - entry with hriskdef
  set reward := if dir = .Long then tp1 - entry else entry - tp1 with hrewdef
  by_cases hrisk : risk ≤ 0 ∨ CONFIG_risk_cap sym < risk
  · rw [if_pos hrisk] at hu
    exact hst u hu
  rw [if_neg hrisk] at hu
  by_cases hrr : reward / risk < minRR
  · rw [if_pos hrr] at hu
    exact hst u hu
  rw [if_neg hrr] at hu
  dsimp only at hu
  rw [List.mem_append] at hu
  rcases hu with hu | hu
  · exact hst u hu
  · rw [List.mem_singleton] at hu
    subst hu
    push_neg at hrisk
    exact ⟨rfl, hrisk.1, hrisk.2, not_lt.mp hrr⟩

/-- `modelCLongLevel` preserves the numeric-gate invariant. -/
theorem modelCLongLevel_gates {liq : LiquidityMap} {sym : SymbolCode}
    {minRR : ℚ} {currentBar trendBar : OhlcBar}
    {st : List TradeCandidate × List ModelCKey} {entry : ℚ}
    (hst : ∀ u ∈ st.1,
      u.status = .VALID ∧ 0 < u.risk_price ∧
      u.risk_price ≤ CONFIG_risk_cap sym ∧ minRR ≤ u.rr) :
    ∀ u ∈ (modelCLongLevel liq sym minRR currentBar trendBar st entry).1,
      u.status = .VALID ∧ 0 < u.risk_price ∧
      u.risk_price ≤ CONFIG_risk_cap sym ∧ minRR ≤ u.rr := by
  intro u hu
  unfold modelCLongLevel at hu
  split at hu
  · exact hst u hu
  split at hu
  · exact hst u hu
  next tp1 heq =>
    dsimp only at hu
    split at hu
    · exact hst u hu
    next htp0 =>
      refine maybePushTrade_gates ?_ u hu
      split
      next swingLow heq2 =>
        split
        · exact hst
        · exact maybePushTrade_gates hst
      next => exact hst

/-- `modelCShortLevel` preserves the numeric-gate invariant. -/
theorem modelCShortLevel_gates {liq : LiquidityMap} {sym : SymbolCode}
    {minRR : ℚ} {currentBar trendBar : OhlcBar}
    {st : List TradeCandidate × List ModelCKey} {entry : ℚ}
    (hst : ∀ u ∈ st.1,
      u.status = .VALID ∧ 0 < u.risk_price ∧
      u.risk_price ≤ CONFIG_risk_cap sym ∧ minRR ≤ u.rr) :
    ∀ u ∈ (modelCShortLevel liq sym minRR currentBar trendBar st entry).1,
      u.status = .VALID ∧ 0 < u.risk_price ∧
      u.risk_price ≤ CONFIG_risk_cap sym ∧ minRR ≤ u.rr := by
  intro u hu
  unfold modelCShortLevel at hu
  split at hu
  · exact hst u hu
  split at hu
  · exact hst u hu
  next tp1 heq =>
    dsimp only at hu
    split at hu
    · exact hst u hu
    next htp0 =>
      refine maybePushTrade_gates ?_ u hu
      split
      next swingHigh heq2 =>
        split
        · exact hst
        · exact maybePushTrade_gates hst
      next => exact hst

/-- Folding Model C's Bull levels preserves the numeric-gate invariant. -/
theorem foldl_modelCLongLevel_gates {liq : LiquidityMap} {sym : SymbolCode}
    {minRR : ℚ} {currentBar trendBar : OhlcBar} :
    ∀ (levels : List ℚ) (st : List TradeCandidate × List ModelCKey),
      (∀ u ∈ st.1,
        u.status = .VALID ∧ 0 < u.risk_price ∧
        u.risk_price ≤ CONFIG_risk_cap sym ∧ minRR ≤ u.rr) →
      ∀ u ∈ (levels.foldl
          (modelCLongLevel liq sym minRR currentBar trendBar) st).1,
        u.status = .VALID ∧ 0 < u.risk_price ∧
        u.risk_price ≤ CONFIG_risk_cap sym ∧ minRR ≤ u.rr := by
  intro levels
  induction levels with
  | nil => intro st hst; exact hst
  | cons x rest ih =>
    intro st hst
    exact ih _ (modelCLongLevel_gates hst)

/-- Folding Model C's Bear levels preserves the numeric-gate invariant. -/
theorem foldl_modelCShortLevel_gates {liq : LiquidityMap} {sym : SymbolCode}
    {minRR : ℚ} {currentBar trendBar : OhlcBar} :
    ∀ (levels : List ℚ) (st : List TradeCandidate × List ModelCKey),
      (∀ u ∈ st.1,
        u.status = .VALID ∧ 0 < u.risk_price ∧
        u.risk_price ≤ CONFIG_risk_cap sym ∧ minRR ≤ u.rr) →
      ∀ u ∈ (levels.foldl
          (modelCShortLevel liq sym minRR currentBar trendBar) st).1,
        u.status = .VALID ∧ 0 < u.risk_price ∧
        u.risk_price ≤ CONFIG_risk_cap sym ∧ minRR ≤ u.rr := by
  intro levels
  induction levels with
  | nil => intro st hst; exact hst
  | cons x rest ih =>
    intro st hst
    exact ih _ (modelCShortLevel_gates hst)

/-- C5.  Every candidate emitted by Models A, B or C has status `VALID`,
positive risk, risk within the per-symbol cap, and reward:risk at least the
effective minimum; the boundary is inclusive — at `min_rr = 2.0` a risk-5 /
reward-10 trade (rr exactly 2.0) is emitted and a risk-5 / reward-9 trade is
dropped. -/
theorem c5_trade_candidate_gates :
    (∀ (trend : MacroTrend) (zones : List OcZone) (liquidity : LiquidityMap)
        (bars : List OhlcBar) (symbol : SymbolCode) (minRr spreadCap : Option ℚ)
        (t : TradeCandidate),
      (t ∈ generateModelATrades trend zones liquidity bars symbol minRr spreadCap ∨
       t ∈ generateModelBTrades trend zones liquidity bars symbol minRr spreadCap ∨
       t ∈ generateModelCTrades trend liquidity bars symbol minRr spreadCap) →
      t.status = .VALID ∧ 0 < t.risk_price ∧
      t.risk_price ≤ CONFIG_risk_cap symbol ∧
      minRr.getD CONFIG_min_rr ≤ t.rr) ∧
    generateModelATrades .Bull [exZoneA] exLiqKeep [exBarA] .XAUUSD (some 2) none
        = [exBoundaryTrade] ∧
    exBoundaryTrade.rr = 2 ∧
    generateModelATrades .Bull [exZoneA] exLiqDrop [exBarA] .XAUUSD (some 2) none
        = [] := by
  refine ⟨?_, by with_unfolding_all decide, by with_unfolding_all decide,
    by with_unfolding_all decide⟩
  intro trend zones liquidity bars symbol minRr spreadCap t ht
  rcases ht with ht | ht | ht
  · unfold generateModelATrades at ht
    split at ht
    · simp at ht
    next lastBar heq =>
      dsimp only at ht
      split at ht
      · simp at ht
      split at ht
      · rw [List.mem_filterMap] at ht
        obtain ⟨zone, -, hz⟩ := ht
        exact modelALongAtZone_gates hz
      · rw [List.mem_filterMap] at ht
        obtain ⟨zone, -, hz⟩ := ht
        exact modelAShortAtZone_gates hz
      · simp at ht
  · unfold generateModelBTrades at ht
    split at ht
    · simp at ht
    next lastBar heq =>
      dsimp only at ht
      split at ht
      · simp at ht
      split at ht
      · simp at ht
      next prevBar heq2 =>
        split at ht
        · rw [List.mem_filterMap] at ht
          obtain ⟨zone, -, hz⟩ := ht
          exact modelBLongAtZone_gates hz
        · rw [List.mem_filterMap] at ht
          obtain ⟨zone, -, hz⟩ := ht
          exact modelBShortAtZone_gates hz
        · simp at ht
  · unfold generateModelCTrades at ht
    split at ht
    · simp at ht
    split at ht
    next referenceBar trendBar currentBar heq =>
      dsimp only at ht
      split at ht
      · simp at ht
      split at ht
      · simp at ht
      · exact foldl_modelCLongLevel_gates _ _ (by simp) t ht
      · exact foldl_modelCShortLevel_gates _ _ (by simp) t ht
    next => simp at ht

/-- Witness for C5 at the inclusive-boundary trade. -/
theorem c5_trade_candidate_gates_witness :
    exBoundaryTrade.status = .VALID ∧ 0 < exBoundaryTrade.risk_price ∧
    exBoundaryTrade.risk_price ≤ CONFIG_risk_cap .XAUUSD ∧
    (some (2:ℚ)).getD CONFIG_min_rr ≤ exBoundaryTrade.rr :=
  c5_trade_candidate_gates.1 .Bull [exZoneA] exLiqKeep [exBarA] .XAUUSD
    (some 2) none exBoundaryTrade (Or.inl (by with_unfolding_all decide))

/-! ## Claim C9: batch-scan isolation -/

/-- Keyed fold characterisation of the `results` object: every requested
symbol maps to the entry its own scan produced; unrequested symbols are
absent. -/
theorem foldl_update_entries {R : Type} (f : SymbolCode → SymbolScanEntry R) :
    ∀ (symbols : List SymbolCode)
      (m : SymbolCode → Option (SymbolScanEntry R)) (s : SymbolCode),
      ((symbols.map (fun x => (x, f x))).foldl
          (fun (acc : SymbolCode → Option (SymbolScanEntry R))
            (e : SymbolCode × SymbolScanEntry R) =>
              Function.update acc e.1 (some e.2)) m) s
        = if s ∈ symbols then some (f s) else m s := by
  intro symbols
  induction symbols with
  | nil => intro m s; simp
  | cons x rest ih =>
    intro m s
    simp only [List.map_cons, List.foldl_cons, ih, List.mem_cons]
    by_cases hs : s ∈ rest
    · rw [if_pos hs, if_pos (Or.inr hs)]
    · rw [if_neg hs]
      by_cases hx : s = x
      · subst hx
        rw [if_pos (Or.inl rfl), Function.update_apply, if_pos rfl]
      · rw [if_neg (by tauto), Function.update_apply, if_neg hx]

/-- C9.  `scanMarket` records exactly one entry per requested symbol: the
entry of symbol `s` is determined by `s`'s own scan alone (an error there
yields an error entry with that symbol's message and never disturbs any
other symbol's entry), and with a bar-source failure injected for exactly
one of the four configured symbols the response still carries four entries,
three `ok` and one `error`. -/
theorem c9_scan_isolation :
    (∀ (R : Type) (scanOne : SymbolCode → Except String R)
        (symbols : List SymbolCode),
      (scanMarketEntries scanOne symbols).length = symbols.length ∧
      (∀ s, scanMarketResults scanOne symbols s =
        if s ∈ symbols then some (scanEntryOf scanOne s) else none) ∧
      (∀ s m, scanOne s = Except.error m →
        scanEntryOf scanOne s = .error s m) ∧
      (∀ s r, scanOne s = Except.ok r → scanEntryOf scanOne s = .ok s r)) ∧
    ((scanMarketEntries (scanSymbolE exScanConfig exGetBars exScanOptions)
        allSymbols).length = 4 ∧
      (scanMarketEntries (scanSymbolE exScanConfig exGetBars exScanOptions)
        allSymbols).countP (fun e => entryIsOk e.2) = 3 ∧
      (scanMarketEntries (scanSymbolE exScanConfig exGetBars exScanOptions)
        allSymbols).countP (fun e => !entryIsOk e.2) = 1 ∧
      scanMarketResults (scanSymbolE exScanConfig exGetBars exScanOptions)
          allSymbols .EURUSD
        = some (.error .EURUSD "Insufficient data for EURUSD: got 0, need 3")) := by
  constructor
  · intro R scanOne symbols
    refine ⟨by simp [scanMarketEntries], ?_, ?_, ?_⟩
    · intro s
      exact foldl_update_entries (scanEntryOf scanOne) symbols _ s
    · intro s m hm
      unfold scanEntryOf
      rw [hm]
    · intro s r hr
      unfold scanEntryOf
      rw [hr]
  · exact ⟨by with_unfolding_all decide, by with_unfolding_all decide,
      by with_unfolding_all decide, by with_unfolding_all decide⟩

/-- Witness for C9: the general per-symbol characterisation applied to the
concrete failure scenario at a non-failing symbol. -/
theorem c9_scan_isolation_witness :
    scanMarketResults (scanSymbolE exScanConfig exGetBars exScanOptions)
        allSymbols .XAUUSD
      = if SymbolCode.XAUUSD ∈ allSymbols
        then some (scanEntryOf
          (scanSymbolE exScanConfig exGetBars exScanOptions) .XAUUSD)
        else none :=
  ((c9_scan_isolation.1 SymbolScanOk
    (scanSymbolE exScanConfig exGetBars exScanOptions) allSymbols).2.1 .XAUUSD)

/-! ## Claim C7: sweet-spot gating -/

/-- On each of the six bucket labels the program produces,
`parseBucketRange` yields exactly the bucket's numeric `[min, max]` range. -/
theorem parseBucketRange_label (pb : PullbackBucket) :
    parseBucketRange (some (bucketLabel pb)) = some (bucketNumericRange pb) := by
  cases pb <;> with_unfolding_all decide

/-- On bucket labels, `bucketsAlign` holds exactly when the two numeric
ranges intersect (label equality is subsumed: every label's range meets
itself). -/
theorem bucketsAlign_labels (cb db : PullbackBucket) :
    bucketsAlign (some (bucketLabel cb)) (some (bucketLabel db)) = true ↔
      (bucketNumericRange cb).1 ≤ (bucketNumericRange db).2 ∧
      (bucketNumericRange db).1 ≤ (bucketNumericRange cb).2 := by
  cases cb <;> cases db <;> (constructor <;> intro h <;>
    first
    | exact (by with_unfolding_all decide : _ ∧ _)
    | with_unfolding_all decide
    | exact absurd h (by with_unfolding_all decide))

/-- `bucketsAlign` is false whenever either side is absent. -/
theorem bucketsAlign_none :
    (∀ d, bucketsAlign none d = false) ∧
    (∀ c, bucketsAlign c none = false) := by
  constructor
  · intro d; rfl
  · intro c; cases c <;> rfl

/-- The six bucket labels are pairwise distinct. -/
theorem bucketLabel_inj (a b : PullbackBucket) (h : bucketLabel a = bucketLabel b) :
    a = b := by
  cases a <;> cases b <;> first | rfl | exact absurd h (by with_unfolding_all decide)

/-- Characterisation of `bucketsAlign` on program-produced buckets: it holds
exactly when both sides are bucket labels whose numeric ranges intersect. -/
theorem bucketsAlign_char (cB dB : Option String)
    (hcb : ∀ s, cB = some s → ∃ pb, s = bucketLabel pb)
    (hdb : ∀ s, dB = some s → ∃ pb, s = bucketLabel pb) :
    bucketsAlign cB dB = true ↔
      ∃ cb db : PullbackBucket,
        cB = some (bucketLabel cb) ∧ dB = some (bucketLabel db) ∧
        (bucketNumericRange cb).1 ≤ (bucketNumericRange db).2 ∧
        (bucketNumericRange db).1 ≤ (bucketNumericRange cb).2 := by
  cases hcv : cB with
  | none =>
    rw [bucketsAlign_none.1]
    simp
  | some s =>
    obtain ⟨cb, rfl⟩ := hcb s hcv
    cases hdv : dB with
    | none =>
      rw [bucketsAlign_none.2]
      simp
    | some s2 =>
      obtain ⟨db, rfl⟩ := hdb s2 hdv
      rw [bucketsAlign_labels cb db]
      constructor
      · intro ⟨h1, h2⟩
        exact ⟨cb, db, rfl, rfl, h1, h2⟩
      · rintro ⟨cb2, db2, hc2, hd2, h1, h2⟩
        rw [Option.some_inj] at hc2 hd2
        rw [bucketLabel_inj cb cb2 hc2, bucketLabel_inj db db2 hd2]
        exact ⟨h1, h2⟩

/-- Reduction of `evaluateSweetSpot` past the first two gates. -/
theorem evaluateSweetSpot_gate3 (ctx : SweetSpotContext) (nz : NearestZoneInfo)
    (hsome : ctx.nearestZone = some nz)
    (hst : nz.status = .AT_ZONE ∨ nz.status = .NEAR) (p : ℚ)
    (hpct : ctx.pullbackDepth.bind PullbackDepthCtx.pct = some p) :
    (evaluateSweetSpot ctx).isSweetSpot = true ↔
      (bucketsAlign (ctx.pullbackDepth.bind PullbackDepthCtx.bucket)
          (ctx.typicalPullback.bind TypicalPullbackCtx.dominantBucket) = true ∨
        ∃ m, ctx.typicalPullback.bind TypicalPullbackCtx.meanPct = some m ∧
          |p - m| ≤ MEAN_TOLERANCE) := by
  unfold evaluateSweetSpot
  rw [hsome, hpct]
  have step : ∀ (A : Bool) (M : Option ℚ),
      ((if A = true ∨ (match M with
          | some m => decide (|p - m| ≤ MEAN_TOLERANCE)
          | none => false) = true then
        ({ isSweetSpot := true,
           reason := some "Pullback aligns with historical behaviour and price is near zone." } : SweetSpotSignal)
      else
        { isSweetSpot := false,
          reason := some "Current pullback does not align with historical sweet spot." }).isSweetSpot = true ↔
      (A = true ∨ ∃ m, M = some m ∧ |p - m| ≤ MEAN_TOLERANCE)) := by
    intro A M
    constructor
    · intro htrue
      split at htrue
      next hcond =>
        rcases hcond with hal | hmc
        · exact Or.inl hal
        · right
          cases hmv : M with
          | none => rw [hmv] at hmc; exact absurd hmc (by simp)
          | some m =>
            rw [hmv] at hmc
            exact ⟨m, rfl, of_decide_eq_true hmc⟩
      next => exact absurd htrue (by simp)
    · intro hr
      rw [if_pos]
      rcases hr with hal | ⟨m, hm, hclose⟩
      · exact Or.inl hal
      · right
        rw [hm]
        exact decide_eq_true hclose
  rcases hst with h | h <;> simp only [h] <;> exact step _ _

/-- C7.  `evaluateSweetSpot` applies its gates in order: false when the
nearest zone is absent or neither `AT_ZONE` nor `NEAR`; otherwise false when
the current depth is unavailable; otherwise true exactly when the current
bucket's numeric range intersects the dominant bucket's range or the depth
deviates from the historical mean by at most `MEAN_TOLERANCE = 0.05`. -/
theorem c7_sweet_spot_gates :
    ∀ ctx : SweetSpotContext,
      (∀ s, ctx.pullbackDepth.bind PullbackDepthCtx.bucket = some s →
        ∃ pb, s = bucketLabel pb) →
      (∀ s, ctx.typicalPullback.bind TypicalPullbackCtx.dominantBucket = some s →
        ∃ pb, s = bucketLabel pb) →
      ((ctx.nearestZone = none ∨
          (∃ nz, ctx.nearestZone = some nz ∧
            nz.status ≠ .AT_ZONE ∧ nz.status ≠ .NEAR)) →
        (evaluateSweetSpot ctx).isSweetSpot = false) ∧
      (∀ nz, ctx.nearestZone = some nz →
        (nz.status = .AT_ZONE ∨ nz.status = .NEAR) →
        (ctx.pullbackDepth.bind PullbackDepthCtx.pct = none →
          (evaluateSweetSpot ctx).isSweetSpot = false) ∧
        (∀ p, ctx.pullbackDepth.bind PullbackDepthCtx.pct = some p →
          ((evaluateSweetSpot ctx).isSweetSpot = true ↔
            (∃ cb db : PullbackBucket,
              ctx.pullbackDepth.bind PullbackDepthCtx.bucket
                  = some (bucketLabel cb) ∧
              ctx.typicalPullback.bind TypicalPullbackCtx.dominantBucket
                  = some (bucketLabel db) ∧
              (bucketNumericRange cb).1 ≤ (bucketNumericRange db).2 ∧
              (bucketNumericRange db).1 ≤ (bucketNumericRange cb).2) ∨
            (∃ m, ctx.typicalPullback.bind TypicalPullbackCtx.meanPct = some m ∧
              |p - m| ≤ MEAN_TOLERANCE)))) := by
  intro ctx hcb hdb
  constructor
  · intro h
    rcases h with hnone | ⟨nz, hsome, hs1, hs2⟩
    · simp [evaluateSweetSpot, hnone]
    · simp [evaluateSweetSpot, hsome, hs1, hs2]
  · intro nz hsome hst
    constructor
    · intro hpct
      unfold evaluateSweetSpot
      rw [hsome, hpct]
      rcases hst with h | h <;> simp [h]
    · intro p hpct
      rw [evaluateSweetSpot_gate3 ctx nz hsome hst p hpct,
        bucketsAlign_char _ _ hcb hdb]

/-- Witness for C7: the example context (at zone, depth 0.45 in
`"0.382-0.5"`, dominant bucket `"0.5-0.618"`) is a sweet spot through the
range-intersection arm. -/
theorem c7_sweet_spot_gates_witness :
    (evaluateSweetSpot exSweetCtx).isSweetSpot = true :=
  (((c7_sweet_spot_gates exSweetCtx
      (by
        intro s hs
        have h2 : some "0.382-0.5" = some s := hs
        exact ⟨.d382_500, (Option.some_inj.mp h2).symm⟩)
      (by
        intro s hs
        have h2 : some "0.5-0.618" = some s := hs
        exact ⟨.d500_618, (Option.some_inj.mp h2).symm⟩)).2
    exNearestInfo rfl (Or.inl rfl)).2 (45/100) rfl).mpr
    (Or.inl ⟨.d382_500, .d500_618, rfl, rfl, by norm_num [bucketNumericRange],
      by norm_num [bucketNumericRange]⟩)

/-! ## Claims C4 and C10: zone clustering -/

/-- The clustering loop only appends to the already-finished clusters. -/
theorem clusterLoop_done (radius : ℚ) :
    ∀ (ps : List ℚ) (done : List (List ℚ)) (revCur : List ℚ) (last : ℚ),
      clusterLoop radius done revCur last ps
        = done ++ clusterLoop radius [] revCur last ps := by
  intro ps
  induction ps with
  | nil =>
    intro done revCur last
    simp [clusterLoop]
  | cons p ps ih =>
    intro done revCur last
    unfold clusterLoop
    split
    · exact ih done (last :: revCur) p
    · rw [ih (done ++ [(last :: revCur).reverse]) [] p,
        ih ([] ++ [(last :: revCur).reverse]) [] p]
      simp

/-- Full characterisation of the clustering loop on a sorted remainder:
the produced clusters concatenate back to the input, are nonempty, are
chains of gaps at most `radius`, and adjacent clusters are separated by a
gap above `radius`; the first produced cluster starts where the current
cluster starts. -/
theorem clusterLoop_spec (radius : ℚ) :
    ∀ (ps revCur : List ℚ) (last : ℚ),
      List.Sorted (· ≤ ·) (revCur.reverse ++ last :: ps) →
      List.Chain' (fun a b => b - a ≤ radius) (revCur.reverse ++ [last]) →
      (clusterLoop radius [] revCur last ps).flatten
          = revCur.reverse ++ last :: ps ∧
      (∀ c ∈ clusterLoop radius [] revCur last ps, c ≠ []) ∧
      (∀ c ∈ clusterLoop radius [] revCur last ps,
        List.Chain' (fun a b => b - a ≤ radius) c) ∧
      List.Chain' (fun c d => ∀ x ∈ c.getLast?, ∀ y ∈ d.head?, radius < y - x)
        (clusterLoop radius [] revCur last ps) ∧
      (∀ c, (clusterLoop radius [] revCur last ps).head? = some c →
        c.head? = (revCur.reverse ++ [last]).head?) := by
  intro ps
  induction ps with
  | nil =>
    intro revCur last hsorted hchain
    refine ⟨by simp [clusterLoop, List.reverse_cons], ?_, ?_, ?_, ?_⟩
    · intro c hc
      simp only [clusterLoop, List.nil_append, List.mem_singleton] at hc
      subst hc
      simp [List.reverse_cons]
    · intro c hc
      simp only [clusterLoop, List.nil_append, List.mem_singleton] at hc
      subst hc
      rw [List.reverse_cons]
      exact hchain
    · simp only [clusterLoop, List.nil_append]
      exact List.chain'_singleton _
    · intro c hc
      simp only [clusterLoop, List.nil_append, List.head?_cons,
        Option.some_inj] at hc
      subst hc
      rw [List.reverse_cons]
  | cons p ps ih =>
    intro revCur last hsorted hchain
    have hsub : (last :: p :: ps).Sublist (revCur.reverse ++ last :: p :: ps) :=
      List.sublist_append_right _ _
    have hlp : last ≤ p :=
      (List.pairwise_cons.mp (hsorted.sublist hsub)).1 p (by simp)
    have habs : |p - last| = p - last := abs_of_nonneg (by linarith)
    by_cases hgap : |p - last| ≤ radius
    · have hstep : clusterLoop radius [] revCur last (p :: ps)
          = clusterLoop radius [] (last :: revCur) p ps := by
        unfold clusterLoop
        rw [if_pos hgap]
        cases ps <;> rfl
      have e1 : (last :: revCur).reverse ++ p :: ps
          = revCur.reverse ++ last :: p :: ps := by
        rw [List.reverse_cons, List.append_assoc]
        rfl
      have e2 : (last :: revCur).reverse ++ [p]
          = (revCur.reverse ++ [last]) ++ [p] := by
        rw [List.reverse_cons]
      have hsorted2 : List.Sorted (· ≤ ·) ((last :: revCur).reverse ++ p :: ps) := by
        rw [e1]; exact hsorted
      have hchain2 : List.Chain' (fun a b => b - a ≤ radius)
          ((last :: revCur).reverse ++ [p]) := by
        rw [e2, List.chain'_append]
        refine ⟨hchain, List.chain'_singleton _, ?_⟩
        intro x hx y hy
        rw [List.getLast?_concat] at hx
        simp only [List.head?_cons, Option.mem_def, Option.some_inj] at hx hy
        subst hx
        subst hy
        rw [habs] at hgap
        exact hgap
      obtain ⟨ha, hb, hc, hd, he⟩ := ih (last :: revCur) p hsorted2 hchain2
      rw [e1] at ha
      refine ⟨by rw [hstep]; exact ha, by rw [hstep]; exact hb,
        by rw [hstep]; exact hc, by rw [hstep]; exact hd, ?_⟩
      intro c hch
      rw [hstep] at hch
      have := he c hch
      rw [e2] at this
      rw [this]
      cases hrc : revCur.reverse with
      | nil => rfl
      | cons a t => simp [List.head?_append, hrc]
    · have hstep : clusterLoop radius [] revCur last (p :: ps)
          = (last :: revCur).reverse :: clusterLoop radius [] [] p ps := by
        have h1 : clusterLoop radius [] revCur last (p :: ps)
            = clusterLoop radius ([] ++ [(last :: revCur).reverse]) [] p ps := by
          unfold clusterLoop
          rw [if_neg hgap]
          cases ps <;> rfl
        rw [h1, clusterLoop_done radius ps ([] ++ [(last :: revCur).reverse]) [] p]
        simp
      have hsorted2 : List.Sorted (· ≤ ·) (([] : List ℚ).reverse ++ p :: ps) := by
        simp only [List.reverse_nil, List.nil_append]
        exact hsorted.sublist ((List.sublist_cons_self _ _).trans hsub)
      have hchain2 : List.Chain' (fun a b => b - a ≤ radius)
          (([] : List ℚ).reverse ++ [p]) := by
        simp only [List.reverse_nil, List.nil_append]
        exact List.chain'_singleton _
      obtain ⟨ha, hb, hc, hd, he⟩ := ih [] p hsorted2 hchain2
      simp only [List.reverse_nil, List.nil_append] at ha he
      have hgap2 : radius < p - last := by
        rw [habs] at hgap
        linarith [not_le.mp hgap]
      refine ⟨?_, ?_, ?_, ?_, ?_⟩
      · rw [hstep]
        show (last :: revCur).reverse ++ (clusterLoop radius [] [] p ps).flatten
            = revCur.reverse ++ last :: p :: ps
        rw [ha, List.reverse_cons, List.append_assoc]
        rfl
      · intro c hcm
        rw [hstep] at hcm
        rcases List.mem_cons.mp hcm with rfl | hcm2
        · simp [List.reverse_cons]
        · exact hb c hcm2
      · intro c hcm
        rw [hstep] at hcm
        rcases List.mem_cons.mp hcm with rfl | hcm2
        · rw [List.reverse_cons]
          exact hchain
        · exact hc c hcm2
      · rw [hstep]
        rw [List.chain'_cons']
        refine ⟨?_, hd⟩
        intro c2 hc2
        intro x hx y hy
        rw [List.reverse_cons, List.getLast?_concat] at hx
        simp only [Option.mem_def, Option.some_inj] at hx
        subst hx
        have hch2 := he c2 (by
          cases hres : clusterLoop radius [] [] p ps with
          | nil => rw [hres] at hc2; simp at hc2
          | cons c0 t =>
            rw [hres] at hc2
            simp only [List.head?_cons, Option.mem_def, Option.some_inj] at hc2
            simp [hc2])
        rw [hch2] at hy
        simp only [List.head?_cons, Option.mem_def, Option.some_inj] at hy
        subst hy
        exact hgap2
      · intro c hch
        rw [hstep] at hch
        simp only [List.head?_cons, Option.some_inj] at hch
        subst hch
        rw [List.reverse_cons]

/-- Partition characterisation of the clustering pass on a sorted point
list: the clusters concatenate back to the points, every cluster is a
nonempty chain of consecutive gaps within the radius, and the gap between
adjacent clusters exceeds the radius (hence cluster membership is exactly
chained-gap reachability — single linkage). -/
theorem clusterPoints_partition (radius : ℚ) (points : List ℚ)
    (hs : List.Sorted (· ≤ ·) points) :
    (clusterPoints radius points).flatten = points ∧
    (∀ c ∈ clusterPoints radius points, c ≠ []) ∧
    (∀ c ∈ clusterPoints radius points,
      List.Chain' (fun a b => b - a ≤ radius) c) ∧
    List.Chain' (fun c d => ∀ x ∈ c.getLast?, ∀ y ∈ d.head?, radius < y - x)
      (clusterPoints radius points) := by
  cases points with
  | nil => refine ⟨rfl, by simp [clusterPoints], by simp [clusterPoints],
      by simp [clusterPoints]⟩
  | cons p ps =>
    have h := clusterLoop_spec radius ps [] p
      (by simpa using hs) (by simp)
    exact ⟨by simpa using h.1, h.2.1, h.2.2.1, h.2.2.2.1⟩

/-- C4.  Zone clustering is single linkage over the ascending-sorted
multiset of opens and closes: the clusters partition the sorted points,
within a cluster every consecutive gap is at most the radius (membership is
transitive through intermediate points), adjacent clusters are separated by
a gap above the radius, `findStructuralZonesWith` builds its zones from
exactly this clustering, and the spec's example points split as claimed. -/
theorem c4_single_linkage_clustering :
    (∀ (radius : ℚ) (points : List ℚ), List.Sorted (· ≤ ·) points →
      (clusterPoints radius points).flatten = points ∧
      (∀ c ∈ clusterPoints radius points, c ≠ []) ∧
      (∀ c ∈ clusterPoints radius points,
        List.Chain' (fun a b => b - a ≤ radius) c) ∧
      List.Chain' (fun c d => ∀ x ∈ c.getLast?, ∀ y ∈ d.head?, radius < y - x)
        (clusterPoints radius points)) ∧
    (∀ (lookback : ℕ) (radius : ℚ) (bars : List OhlcBar),
      lookback ≤ bars.length →
      findStructuralZonesWith lookback radius bars
        = (((clusterPoints radius (sortedZonePoints lookback bars)).map
            (zoneFromCluster (takeRight lookback bars))).insertionSort
              (fun a b => b.score ≤ a.score)).take 5) ∧
    clusterPoints (1/2) [100, 502/5, 504/5, 105]
      = [[100, 502/5, 504/5], [105]] := by
  refine ⟨fun radius points hs => clusterPoints_partition radius points hs,
    ?_, ?_⟩
  · intro lookback radius bars h
    unfold findStructuralZonesWith
    rw [if_neg (not_lt.mpr h)]
  · with_unfolding_all decide

/-- Witness for C4: the spec's example point list is sorted, partitions as
claimed, and the zone builder consumes the clustering on a window meeting
the lookback. -/
theorem c4_single_linkage_clustering_witness :
    List.Sorted (· ≤ ·) [100, 502/5, 504/5, (105:ℚ)] ∧
    (clusterPoints (1/2) [100, 502/5, 504/5, (105:ℚ)]).flatten
        = [100, 502/5, 504/5, 105] ∧
    (1 : ℕ) ≤ [exBarA].length ∧
    findStructuralZonesWith 1 (1/2) [exBarA]
      = (((clusterPoints (1/2) (sortedZonePoints 1 [exBarA])).map
          (zoneFromCluster (takeRight 1 [exBarA]))).insertionSort
            (fun a b => b.score ≤ a.score)).take 5 :=
  have hs : List.Sorted (· ≤ ·) [100, 502/5, 504/5, (105:ℚ)] := by
    with_unfolding_all decide
  ⟨hs, (c4_single_linkage_clustering.1 (1/2) _ hs).1, by decide,
    c4_single_linkage_clustering.2.1 1 (1/2) [exBarA] (by decide)⟩

/-- A chain whose relation is transitive is pairwise. -/
theorem chain'_pairwise_of_trans {α : Type} {R : α → α → Prop}
    (tr : ∀ a b c, R a b → R b c → R a c) :
    ∀ {l : List α}, List.Chain' R l → List.Pairwise R l := by
  intro l
  induction l with
  | nil => intro _; exact List.Pairwise.nil
  | cons a t ih =>
    intro h
    rw [List.chain'_cons'] at h
    have hp := ih h.2
    refine List.pairwise_cons.mpr ⟨?_, hp⟩
    cases t with
    | nil => intro b hb; simp at hb
    | cons h₂ t₂ =>
      intro b hb
      have hah : R a h₂ := h.1 h₂ rfl
      rcases List.mem_cons.mp hb with rfl | hb2
      · exact hah
      · exact tr _ _ _ hah ((List.pairwise_cons.mp hp).1 b hb2)

/-- In a sorted list the head is a lower bound. -/
theorem sorted_head_le {l : List ℚ} (hs : List.Sorted (· ≤ ·) l) {y : ℚ}
    (hy : y ∈ l) : ∀ z ∈ l.head?, z ≤ y := by
  cases l with
  | nil => simp at hy
  | cons h t =>
    intro z hz
    simp only [List.head?_cons, Option.mem_def, Option.some_inj] at hz
    subst hz
    rcases List.mem_cons.mp hy with rfl | hy2
    · exact le_refl _
    · exact (List.pairwise_cons.mp hs).1 y hy2

/-- In a sorted list the last element is an upper bound. -/
theorem sorted_le_getLast :
    ∀ (l : List ℚ), List.Sorted (· ≤ ·) l → ∀ x ∈ l, ∀ z ∈ l.getLast?, x ≤ z := by
  intro l
  induction l with
  | nil => intro _ x hx; simp at hx
  | cons h t ih =>
    intro hs x hx z hz
    cases t with
    | nil =>
      simp only [List.mem_singleton] at hx
      simp only [List.getLast?_singleton, Option.mem_def, Option.some_inj] at hz
      rw [hx, ← hz]
    | cons h₂ t₂ =>
      rw [List.getLast?_cons_cons] at hz
      rcases List.mem_cons.mp hx with rfl | hx2
      · have hzmem : z ∈ h₂ :: t₂ :=
          List.mem_of_mem_getLast? hz
        exact (List.pairwise_cons.mp hs).1 z hzmem
      · exact ih (List.pairwise_cons.mp hs).2 x hx2 z hz

/-- `foldl min` never exceeds its seed. -/
theorem foldl_min_le : ∀ (t : List ℚ) (h : ℚ), t.foldl min h ≤ h := by
  intro t
  induction t with
  | nil => intro h; exact le_refl h
  | cons x t ih => intro h; exact (ih (min h x)).trans (min_le_left h x)

/-- `foldl max` never drops below its seed. -/
theorem le_foldl_max : ∀ (t : List ℚ) (h : ℚ), h ≤ t.foldl max h := by
  intro t
  induction t with
  | nil => intro h; exact le_refl h
  | cons x t ih => intro h; exact (le_max_left h x).trans (ih (max h x))

/-- A seed below the whole list is the `foldl min`. -/
theorem foldl_min_of_le :
    ∀ (t : List ℚ) (h : ℚ), (∀ x ∈ t, h ≤ x) → t.foldl min h = h := by
  intro t
  induction t with
  | nil => intro h _; rfl
  | cons x t ih =>
    intro h hall
    show t.foldl min (min h x) = h
    rw [min_eq_left (hall x (by simp))]
    exact ih h (fun z hz => hall z (by simp [hz]))

/-- On a sorted nonempty list, `foldl max` over the tail is the last
element. -/
theorem foldl_max_getLast? :
    ∀ (t : List ℚ) (h : ℚ), List.Sorted (· ≤ ·) (h :: t) →
      (h :: t).getLast? = some (t.foldl max h) := by
  intro t
  induction t with
  | nil => intro h _; rfl
  | cons x t ih =>
    intro h hs
    have hhx : h ≤ x := (List.pairwise_cons.mp hs).1 x (by simp)
    rw [List.getLast?_cons_cons, ih x (List.pairwise_cons.mp hs).2]
    show some (t.foldl max x) = some (t.foldl max (max h x))
    rw [max_eq_right hhx]

/-- Each cluster of a sorted point list is itself sorted. -/
theorem clusterPoints_clusters_sorted (radius : ℚ) (points : List ℚ)
    (hs : List.Sorted (· ≤ ·) points) :
    ∀ c ∈ clusterPoints radius points, List.Sorted (· ≤ ·) c := by
  have hj := (clusterPoints_partition radius points hs).1
  have hflat : List.Pairwise (· ≤ ·) (clusterPoints radius points).flatten := by
    rw [hj]; exact hs
  exact (List.pairwise_flatten.mp hflat).1

/-- Strengthening of the adjacent-cluster boundary gaps to full
element-wise separation, for nonempty sorted clusters. -/
theorem chain'_sep_strengthen (radius : ℚ) :
    ∀ (cs : List (List ℚ)), (∀ c ∈ cs, c ≠ []) →
      (∀ c ∈ cs, List.Sorted (· ≤ ·) c) →
      List.Chain' (fun c d => ∀ x ∈ c.getLast?, ∀ y ∈ d.head?, radius < y - x)
        cs →
      List.Chain'
        (fun c d => c ≠ [] ∧ d ≠ [] ∧ ∀ x ∈ c, ∀ y ∈ d, radius < y - x) cs := by
  intro cs
  induction cs with
  | nil => intro _ _ _; exact List.chain'_nil
  | cons c cs ih =>
    intro hne hsorted hch
    rw [List.chain'_cons'] at hch ⊢
    refine ⟨?_, ih (fun d hd => hne d (List.mem_cons_of_mem c hd))
      (fun d hd => hsorted d (List.mem_cons_of_mem c hd)) hch.2⟩
    intro d hd
    have hdmem : d ∈ c :: cs :=
      List.mem_cons_of_mem c (List.mem_of_mem_head? hd)
    have hcne : c ≠ [] := hne c (by simp)
    have hdne : d ≠ [] := hne d hdmem
    refine ⟨hcne, hdne, ?_⟩
    intro x hx y hy
    obtain ⟨lc, hlc⟩ : ∃ lc, c.getLast? = some lc := by
      cases hlc2 : c.getLast? with
      | none => exact absurd (List.getLast?_eq_none_iff.mp hlc2) hcne
      | some lc => exact ⟨lc, rfl⟩
    obtain ⟨hv, hhv⟩ : ∃ hv, d.head? = some hv := by
      cases hhv2 : d.head? with
      | none => exact absurd (List.head?_eq_none_iff.mp hhv2) hdne
      | some hv => exact ⟨hv, rfl⟩
    have hgap : radius < hv - lc := hch.1 d hd lc (by rw [hlc]; rfl) hv
      (by rw [hhv]; rfl)
    have hx2 : x ≤ lc := sorted_le_getLast c (hsorted c (by simp)) x hx lc
      (by rw [hlc]; rfl)
    have hy2 : hv ≤ y := sorted_head_le (hsorted d hdmem) hy hv
      (by rw [hhv]; rfl)
    linarith

/-- Distinct clusters of a sorted point list are fully separated: every
point of a later cluster exceeds every point of an earlier one by more than
the radius. -/
theorem clusterPoints_pairwise_sep (radius : ℚ) (h0 : 0 ≤ radius)
    (points : List ℚ) (hs : List.Sorted (· ≤ ·) points) :
    List.Pairwise
      (fun c d => c ≠ [] ∧ d ≠ [] ∧ ∀ x ∈ c, ∀ y ∈ d, radius < y - x)
      (clusterPoints radius points) := by
  obtain ⟨hj, hne, hch, hbd⟩ := clusterPoints_partition radius points hs
  have hsorted := clusterPoints_clusters_sorted radius points hs
  have hchain2 := chain'_sep_strengthen radius (clusterPoints radius points)
    hne hsorted hbd
  refine chain'_pairwise_of_trans ?_ hchain2
  rintro a b c ⟨ha, hb, g1⟩ ⟨-, hc, g2⟩
  refine ⟨ha, hc, ?_⟩
  intro x hx y hy
  obtain ⟨z, hz⟩ := List.exists_mem_of_ne_nil b hb
  have h1 := g1 x hx z hz
  have h2 := g2 z hz y hy
  linarith

/-- Band bounds of a zone built from a nonempty cluster. -/
theorem zoneFromCluster_bounds (analysisBars : List OhlcBar) (c : List ℚ)
    (hne : c ≠ []) :
    (zoneFromCluster analysisBars c).zone_low
        ≤ (zoneFromCluster analysisBars c).zone_mid ∧
    (zoneFromCluster analysisBars c).zone_mid
        ≤ (zoneFromCluster analysisBars c).zone_high := by
  cases c with
  | nil => exact absurd rfl hne
  | cons h t =>
    dsimp only [zoneFromCluster]
    constructor <;> linarith [foldl_min_le t h, le_foldl_max t h]

/-- Zones built from fully separated sorted clusters have band gaps above
the radius. -/
theorem zoneFromCluster_sep (analysisBars : List OhlcBar) {radius : ℚ}
    {c d : List ℚ} (hsc : List.Sorted (· ≤ ·) c) (hsd : List.Sorted (· ≤ ·) d)
    (h : c ≠ [] ∧ d ≠ [] ∧ ∀ x ∈ c, ∀ y ∈ d, radius < y - x) :
    radius < (zoneFromCluster analysisBars d).zone_low
        - (zoneFromCluster analysisBars c).zone_high := by
  obtain ⟨hcne, hdne, hgap⟩ := h
  cases c with
  | nil => exact absurd rfl hcne
  | cons hc tc =>
    cases d with
    | nil => exact absurd rfl hdne
    | cons hd td =>
      dsimp only [zoneFromCluster]
      have hhigh : tc.foldl max hc ∈ hc :: tc :=
        List.mem_of_mem_getLast?
          (by rw [foldl_max_getLast? tc hc hsc]; rfl)
      rw [foldl_min_of_le td hd
        (fun x hx => (List.pairwise_cons.mp hsd).1 x hx)]
      exact hgap _ hhigh hd (by simp)

/-- Membership in the zone builder's result comes from a cluster of the
sorted points. -/
theorem mem_findStructuralZonesWith {lookback : ℕ} {radius : ℚ}
    {bars : List OhlcBar} {z : OcZone}
    (h : z ∈ findStructuralZonesWith lookback radius bars) :
    ∃ c ∈ clusterPoints radius (sortedZonePoints lookback bars),
      z = zoneFromCluster (takeRight lookback bars) c := by
  unfold findStructuralZonesWith at h
  split at h
  · simp at h
  · dsimp only at h
    have h2 := List.take_subset 5 _ h
    have h3 := (List.perm_insertionSort
      (fun a b : OcZone => b.score ≤ a.score) _).mem_iff.mp h2
    obtain ⟨c, hc, heq⟩ := List.mem_map.mp h3
    exact ⟨c, hc, heq.symm⟩

/-- The sorted open/close point list is sorted. -/
theorem sortedZonePoints_sorted (lookback : ℕ) (bars : List OhlcBar) :
    List.Sorted (· ≤ ·) (sortedZonePoints lookback bars) :=
  List.sorted_insertionSort _ _

/-- C10.  For a strictly positive cluster radius (every per-symbol
configured radius is), the returned zones are well-formed bands
(`zone_low ≤ zone_mid ≤ zone_high`) and any two distinct returned zones are
separated by a price gap strictly above the radius. -/
theorem c10_zone_bands_disjoint :
    (∀ symbol, 0 < CONFIG_oc_cluster_radius symbol) ∧
    ∀ (lookback : ℕ) (radius : ℚ) (bars : List OhlcBar), 0 < radius →
      ∀ z₁ ∈ findStructuralZonesWith lookback radius bars,
        (z₁.zone_low ≤ z₁.zone_mid ∧ z₁.zone_mid ≤ z₁.zone_high) ∧
        ∀ z₂ ∈ findStructuralZonesWith lookback radius bars, z₁ ≠ z₂ →
          radius < z₂.zone_low - z₁.zone_high ∨
          radius < z₁.zone_low - z₂.zone_high := by
  constructor
  · intro s
    cases s <;> norm_num [CONFIG_oc_cluster_radius]
  intro lookback radius bars hr z₁ hz₁
  have hs := sortedZonePoints_sorted lookback bars
  obtain ⟨c₁, hc₁, rfl⟩ := mem_findStructuralZonesWith hz₁
  have hpart := clusterPoints_partition radius (sortedZonePoints lookback bars) hs
  constructor
  · exact zoneFromCluster_bounds _ c₁ (hpart.2.1 c₁ hc₁)
  intro z₂ hz₂ hne
  obtain ⟨c₂, hc₂, rfl⟩ := mem_findStructuralZonesWith hz₂
  have hsorted := clusterPoints_clusters_sorted radius
    (sortedZonePoints lookback bars) hs
  have hpw := clusterPoints_pairwise_sep radius (le_of_lt hr)
    (sortedZonePoints lookback bars) hs
  have hzpw : List.Pairwise
      (fun z w => radius < w.zone_low - z.zone_high)
      ((clusterPoints radius (sortedZonePoints lookback bars)).map
        (zoneFromCluster (takeRight lookback bars))) := by
    rw [List.pairwise_map]
    refine List.Pairwise.imp_of_mem ?_ hpw
    intro a b ha hb hab
    exact zoneFromCluster_sep _ (hsorted a ha) (hsorted b hb) hab
  have hsym : List.Pairwise
      (fun z w => radius < w.zone_low - z.zone_high ∨
        radius < z.zone_low - w.zone_high)
      ((clusterPoints radius (sortedZonePoints lookback bars)).map
        (zoneFromCluster (takeRight lookback bars))) :=
    hzpw.imp (fun h => Or.inl h)
  exact List.Pairwise.forall (fun a b h => h.symm) hsym
    (List.mem_map_of_mem _ hc₁) (List.mem_map_of_mem _ hc₂) hne

/-- Witness for C10 on a concrete two-zone run. -/
theorem c10_zone_bands_disjoint_witness :
    (0:ℚ) < 1/2 ∧
    exZoneHigh ∈ findStructuralZonesWith 1 (1/2) [exZoneBar] ∧
    exZoneLow ∈ findStructuralZonesWith 1 (1/2) [exZoneBar] ∧
    exZoneHigh ≠ exZoneLow ∧
    (exZoneHigh.zone_low ≤ exZoneHigh.zone_mid ∧
      exZoneHigh.zone_mid ≤ exZoneHigh.zone_high) ∧
    ((1:ℚ)/2 < exZoneLow.zone_low - exZoneHigh.zone_high ∨
      (1:ℚ)/2 < exZoneHigh.zone_low - exZoneLow.zone_high) :=
  have hr : (0:ℚ) < 1/2 := by norm_num
  have h1 : exZoneHigh ∈ findStructuralZonesWith 1 (1/2) [exZoneBar] := by
    with_unfolding_all decide
  have h2 : exZoneLow ∈ findStructuralZonesWith 1 (1/2) [exZoneBar] := by
    with_unfolding_all decide
  have hne : exZoneHigh ≠ exZoneLow := by with_unfolding_all decide
  have hmain := c10_zone_bands_disjoint.2 1 (1/2) [exZoneBar] hr
    exZoneHigh h1
  ⟨hr, h1, h2, hne, hmain.1, hmain.2 exZoneLow h2 hne⟩

/-! ## Claim C6: nearest-zone selection and status -/

/-- A zone has an effective mid exactly when it passes the finite-bounds
check. -/
theorem effectiveMid_none_iff (z : OcZoneJs) :
    effectiveMid z = none ↔ zoneValid z = false := by
  obtain ⟨zl, zh, zm, sc, zt⟩ := z
  cases zl <;> cases zh <;> cases zm <;>
    simp [effectiveMid, zoneValid]
  all_goals split <;> simp

/-- Characterisation of the best-zone linear scan: a `none` result means no
zone was usable; a `some` result is either the untouched accumulator (no
zone beat it) or the first zone attaining the minimal distance — strictly
better than the accumulator, strictly better than every earlier usable
zone, and at least as good as every usable zone. -/
theorem nearestScan_fold_spec (s : ℚ) :
    ∀ (zones : List OcZoneJs) (acc : Option (OcZoneJs × ℚ)),
      (zones.foldl (nearestScanStep s) acc = none ↔
        acc = none ∧ ∀ z ∈ zones, effectiveMid z = none) ∧
      (∀ bz bd, zones.foldl (nearestScanStep s) acc = some (bz, bd) →
        ((acc = some (bz, bd) ∧
            ∀ z ∈ zones, ∀ m, effectiveMid z = some m → bd ≤ |s - m|) ∨
          (∃ pre z post m, zones = pre ++ z :: post ∧
            effectiveMid z = some m ∧ bz = z ∧ bd = |s - m| ∧
            (∀ q p, acc = some (q, p) → bd < p) ∧
            (∀ w ∈ pre, ∀ mw, effectiveMid w = some mw → bd < |s - mw|) ∧
            (∀ w ∈ zones, ∀ mw, effectiveMid w = some mw → bd ≤ |s - mw|)))) := by
  intro zones
  induction zones with
  | nil =>
    intro acc
    constructor
    · simp
    · intro bz bd h
      exact Or.inl ⟨h, by simp⟩
  | cons z₀ rest ih =>
    intro acc
    cases hm : effectiveMid z₀ with
    | none =>
      have hstep : nearestScanStep s acc z₀ = acc := by
        unfold nearestScanStep
        rw [hm]
      have hfold : (z₀ :: rest).foldl (nearestScanStep s) acc
          = rest.foldl (nearestScanStep s) acc := by
        rw [List.foldl_cons, hstep]
      constructor
      · rw [hfold, (ih acc).1]
        constructor
        · rintro ⟨ha, hall⟩
          refine ⟨ha, ?_⟩
          intro z hz
          rcases List.mem_cons.mp hz with rfl | hz2
          · exact hm
          · exact hall z hz2
        · rintro ⟨ha, hall⟩
          exact ⟨ha, fun z hz => hall z (List.mem_cons_of_mem z₀ hz)⟩
      · intro bz bd h
        rw [hfold] at h
        rcases (ih acc).2 bz bd h with ⟨ha, hall⟩ | ⟨pre, z, post, m, heq, hme, hbz, hbd, hacc, hpre, hall⟩
        · refine Or.inl ⟨ha, ?_⟩
          intro z hz mw hmw
          rcases List.mem_cons.mp hz with rfl | hz2
          · rw [hm] at hmw; exact absurd hmw (by simp)
          · exact hall z hz2 mw hmw
        · refine Or.inr ⟨z₀ :: pre, z, post, m, by simp [heq], hme, hbz, hbd,
            hacc, ?_, ?_⟩
          · intro w hw mw hmw
            rcases List.mem_cons.mp hw with rfl | hw2
            · rw [hm] at hmw; exact absurd hmw (by simp)
            · exact hpre w hw2 mw hmw
          · intro w hw mw hmw
            rcases List.mem_cons.mp hw with rfl | hw2
            · rw [hm] at hmw; exact absurd hmw (by simp)
            · exact hall w hw2 mw hmw
    | some m₀ =>
      have hdet : ∀ mw, effectiveMid z₀ = some mw → mw = m₀ := by
        intro mw hmw
        rw [hm] at hmw
        exact (Option.some_inj.mp hmw).symm
      cases acc with
      | none =>
        have hstep : nearestScanStep s none z₀ = some (z₀, |s - m₀|) := by
          unfold nearestScanStep
          rw [hm]
        have hfold : (z₀ :: rest).foldl (nearestScanStep s) none
            = rest.foldl (nearestScanStep s) (some (z₀, |s - m₀|)) := by
          rw [List.foldl_cons, hstep]
        constructor
        · rw [hfold, (ih _).1]
          simp [hm]
        · intro bz bd h
          rw [hfold] at h
          rcases (ih _).2 bz bd h with ⟨ha, hall⟩ |
            ⟨pre, z, post, m, heq, hme, hbz, hbd, hacc, hpre, hall⟩
          · rw [Option.some_inj, Prod.mk.injEq] at ha
            obtain ⟨hbz, hbd⟩ := ha
            refine Or.inr ⟨[], z₀, rest, m₀, rfl, hm, hbz.symm, hbd.symm,
              by simp, by simp, ?_⟩
            intro w hw mw hmw
            rcases List.mem_cons.mp hw with rfl | hw2
            · rw [← hbd]
              exact le_of_eq (congrArg _ (congrArg _ (hdet mw hmw))).symm
            · exact hall w hw2 mw hmw
          · have hltd : bd < |s - m₀| := hacc z₀ (|s - m₀|) rfl
            refine Or.inr ⟨z₀ :: pre, z, post, m, by simp [heq], hme, hbz, hbd,
              by simp, ?_, ?_⟩
            · intro w hw mw hmw
              rcases List.mem_cons.mp hw with rfl | hw2
              · rw [hdet mw hmw]
                exact hltd
              · exact hpre w hw2 mw hmw
            · intro w hw mw hmw
              rcases List.mem_cons.mp hw with rfl | hw2
              · rw [hdet mw hmw]
                exact le_of_lt hltd
              · exact hall w hw2 mw hmw
      | some qp =>
        obtain ⟨q, p⟩ := qp
        have hstep : nearestScanStep s (some (q, p)) z₀
            = if |s - m₀| < p then some (z₀, |s - m₀|) else some (q, p) := by
          unfold nearestScanStep
          rw [hm]
        by_cases hlt : |s - m₀| < p
        · have hfold : (z₀ :: rest).foldl (nearestScanStep s) (some (q, p))
              = rest.foldl (nearestScanStep s) (some (z₀, |s - m₀|)) := by
            rw [List.foldl_cons, hstep, if_pos hlt]
          constructor
          · rw [hfold, (ih _).1]
            simp [hm]
          · intro bz bd h
            rw [hfold] at h
            rcases (ih _).2 bz bd h with ⟨ha, hall⟩ |
              ⟨pre, z, post, m, heq, hme, hbz, hbd, hacc, hpre, hall⟩
            · rw [Option.some_inj, Prod.mk.injEq] at ha
              obtain ⟨hbz, hbd⟩ := ha
              refine Or.inr ⟨[], z₀, rest, m₀, rfl, hm, hbz.symm, hbd.symm,
                ?_, by simp, ?_⟩
              · intro q2 p2 hqp
                rw [Option.some_inj, Prod.mk.injEq] at hqp
                rw [← hqp.2, ← hbd]
                exact hlt
              · intro w hw mw hmw
                rcases List.mem_cons.mp hw with rfl | hw2
                · rw [← hbd]
                  exact le_of_eq (congrArg _ (congrArg _ (hdet mw hmw))).symm
                · exact hall w hw2 mw hmw
            · have hltd : bd < |s - m₀| := hacc z₀ (|s - m₀|) rfl
              refine Or.inr ⟨z₀ :: pre, z, post, m, by simp [heq], hme, hbz, hbd,
                ?_, ?_, ?_⟩
              · intro q2 p2 hqp
                rw [Option.some_inj, Prod.mk.injEq] at hqp
                rw [← hqp.2]
                exact hltd.trans hlt
              · intro w hw mw hmw
                rcases List.mem_cons.mp hw with rfl | hw2
                · rw [hdet mw hmw]
                  exact hltd
                · exact hpre w hw2 mw hmw
              · intro w hw mw hmw
                rcases List.mem_cons.mp hw with rfl | hw2
                · rw [hdet mw hmw]
                  exact le_of_lt hltd
                · exact hall w hw2 mw hmw
        · have hple : p ≤ |s - m₀| := not_lt.mp hlt
          have hfold : (z₀ :: rest).foldl (nearestScanStep s) (some (q, p))
              = rest.foldl (nearestScanStep s) (some (q, p)) := by
            rw [List.foldl_cons, hstep, if_neg hlt]
          constructor
          · rw [hfold, (ih _).1]
            simp [hm]
          · intro bz bd h
            rw [hfold] at h
            rcases (ih _).2 bz bd h with ⟨ha, hall⟩ |
              ⟨pre, z, post, m, heq, hme, hbz, hbd, hacc, hpre, hall⟩
            · have hbdp : bd = p := by
                rw [Option.some_inj, Prod.mk.injEq] at ha
                exact ha.2.symm
              refine Or.inl ⟨ha, ?_⟩
              intro w hw mw hmw
              rcases List.mem_cons.mp hw with rfl | hw2
              · rw [hdet mw hmw, hbdp]
                exact hple
              · exact hall w hw2 mw hmw
            · have hltp : bd < p := hacc q p rfl
              refine Or.inr ⟨z₀ :: pre, z, post, m, by simp [heq], hme, hbz, hbd,
                hacc, ?_, ?_⟩
              · intro w hw mw hmw
                rcases List.mem_cons.mp hw with rfl | hw2
                · rw [hdet mw hmw]
                  exact hltp.trans_le hple
                · exact hpre w hw2 mw hmw
              · intro w hw mw hmw
                rcases List.mem_cons.mp hw with rfl | hw2
                · rw [hdet mw hmw]
                  exact le_of_lt (hltp.trans_le hple)
                · exact hall w hw2 mw hmw

/-- C6: `computeNearestZoneInfo` returns `none` exactly when the zone list
is empty, the spot is non-finite, or no zone has finite bounds; otherwise
the returned record comes from a zone whose effective mid (the stored mid
when finite and nonzero, else `(zone_low+zone_high)/2`) minimises
`|spot - mid|`, every strictly earlier usable zone sitting strictly
farther (first strict minimum wins), and its status uses the inclusive
thresholds `distance ≤ 0.10·ATR` / `≤ 0.25·ATR` when a positive finite ATR
is available, else the percent fallback `≤ 0.1%` / `≤ 0.5%` (FAR when the
percent distance is non-finite, i.e. spot = 0). -/
theorem c6_nearest_zone_selection (zones : List OcZoneJs) (spot atr : Option ℚ) :
    (computeNearestZoneInfo zones spot atr = none ↔
      zones = [] ∨ spot = none ∨ ∀ z ∈ zones, zoneValid z = false) ∧
    ∀ info, computeNearestZoneInfo zones spot atr = some info →
      ∃ s, spot = some s ∧ info.spot = s ∧
        (∃ pre z post,
          zones = pre ++ z :: post ∧
          effectiveMid z = some info.zone_mid ∧
          info.zone_low = z.zone_low ∧ info.zone_high = z.zone_high ∧
          info.score = z.score ∧ info.zone_type = z.zone_type ∧
          info.distance = |s - info.zone_mid| ∧
          (∀ w ∈ pre, ∀ mw, effectiveMid w = some mw →
            info.distance < |s - mw|) ∧
          ∀ w ∈ zones, ∀ mw, effectiveMid w = some mw →
            info.distance ≤ |s - mw|) ∧
        (∀ a, atr = some a → 0 < a →
          info.distanceAtr = some (info.distance / a) ∧
          info.status =
            if info.distance ≤ a / 10 then ZoneStatus.AT_ZONE
            else if info.distance ≤ a / 4 then ZoneStatus.NEAR
            else ZoneStatus.FAR) ∧
        ((atr = none ∨ ∃ a, atr = some a ∧ a ≤ 0) →
          info.distanceAtr = none ∧
          (s ≠ 0 →
            info.distancePct = some (info.distance / s * 100) ∧
            info.status =
              if info.distance / s * 100 ≤ 1 / 10 then ZoneStatus.AT_ZONE
              else if info.distance / s * 100 ≤ 1 / 2 then ZoneStatus.NEAR
              else ZoneStatus.FAR) ∧
          (s = 0 → info.distancePct = none ∧ info.status = ZoneStatus.FAR)) := by
  constructor
  · by_cases hz : zones.isEmpty
    · have hznil : zones = [] := by simpa using hz
      subst hznil
      simp [computeNearestZoneInfo]
    · have hzn : zones ≠ [] := fun hnil => hz (by simp [hnil])
      cases spot with
      | none => simp [computeNearestZoneInfo, hz]
      | some s =>
        cases hns : nearestScan s zones with
        | none =>
          have hns' : zones.foldl (nearestScanStep s) none = none := hns
          have hall := ((nearestScan_fold_spec s zones none).1.mp hns').2
          constructor
          · intro _
            exact Or.inr (Or.inr fun z hzz =>
              (effectiveMid_none_iff z).mp (hall z hzz))
          · intro _
            unfold computeNearestZoneInfo
            rw [if_neg hz]
            simp only [hns]
        | some p =>
          obtain ⟨bz, bd⟩ := p
          have hns' : zones.foldl (nearestScanStep s) none = some (bz, bd) := hns
          rcases (nearestScan_fold_spec s zones none).2 bz bd hns' with ⟨ha, _⟩ |
            ⟨pre, z, post, m, heq, hme, hbz, hbd, _, _, _⟩
          · exact absurd ha (by simp)
          · have hmbz : effectiveMid bz = some m := hbz ▸ hme
            have hvz : zoneValid z = true := by
              cases hv : zoneValid z
              · rw [(effectiveMid_none_iff z).mpr hv] at hme
                exact absurd hme (by simp)
              · rfl
            have hzmem : z ∈ zones := by
              rw [heq]
              exact List.mem_append_right pre (List.mem_cons_self z post)
            constructor
            · intro hc
              unfold computeNearestZoneInfo at hc
              rw [if_neg hz] at hc
              simp only [hns, hmbz] at hc
              exact absurd hc (by simp)
            · rintro (h | h | h)
              · exact absurd h hzn
              · exact absurd h (by simp)
              · rw [h z hzmem] at hvz
                exact absurd hvz (by simp)
  · intro info h
    by_cases hz : zones.isEmpty
    · unfold computeNearestZoneInfo at h
      rw [if_pos hz] at h
      exact absurd h (by simp)
    · cases spot with
      | none =>
        unfold computeNearestZoneInfo at h
        rw [if_neg hz] at h
        exact absurd h (by simp)
      | some s =>
        refine ⟨s, rfl, ?_⟩
        cases hns : nearestScan s zones with
        | none =>
          unfold computeNearestZoneInfo at h
          rw [if_neg hz] at h
          simp only [hns] at h
          exact absurd h (by simp)
        | some p =>
          obtain ⟨bz, bd⟩ := p
          have hns' : zones.foldl (nearestScanStep s) none = some (bz, bd) := hns
          rcases (nearestScan_fold_spec s zones none).2 bz bd hns' with ⟨ha, _⟩ |
            ⟨pre, z, post, m, heq, hme, hbz, hbd, hacc, hpre, hall⟩
          · exact absurd ha (by simp)
          · have hmbz : effectiveMid bz = some m := hbz ▸ hme
            unfold computeNearestZoneInfo at h
            rw [if_neg hz] at h
            simp only [hns, hmbz] at h
            have hinfo := (Option.some_inj.mp h).symm
            subst hinfo
            refine ⟨rfl, ⟨pre, z, post, heq, hme, by rw [hbz], by rw [hbz],
              by rw [hbz], by rw [hbz], hbd, hpre, hall⟩, ?_, ?_⟩
            · intro a ha hpos
              subst ha
              simp [classifyZoneStatusAtr, hpos]
            · intro hcase
              rcases hcase with rfl | ⟨a, rfl, hle⟩
              · refine ⟨by simp, ?_, ?_⟩
                · intro hs0
                  simp [classifyZoneStatusPct, hs0]
                · intro hs0
                  subst hs0
                  simp [classifyZoneStatusPct]
              · have hnpos : ¬(0 < a) := not_lt.mpr hle
                refine ⟨by simp [hnpos], ?_, ?_⟩
                · intro hs0
                  simp [classifyZoneStatusPct, hnpos, hs0]
                · intro hs0
                  subst hs0
                  simp [classifyZoneStatusPct, hnpos]

/-- Witness for C6: the empty zone list yields `none`, and on the
repository test zone 95–105 with spot 100 and ATR 10 the selected record's
status follows the ATR thresholds. -/
theorem c6_nearest_zone_selection_witness :
    computeNearestZoneInfo ([] : List OcZoneJs) (some (100 : ℚ)) none = none ∧
    exNearestInfo.status =
      (if exNearestInfo.distance ≤ (10 : ℚ) / 10 then ZoneStatus.AT_ZONE
       else if exNearestInfo.distance ≤ (10 : ℚ) / 4 then ZoneStatus.NEAR
       else ZoneStatus.FAR) := by
  constructor
  · exact (c6_nearest_zone_selection [] (some 100) none).1.mpr (Or.inl rfl)
  · obtain ⟨s, hs, hspot, hdec, hatr, hfb⟩ :=
      (c6_nearest_zone_selection [exZoneJs] (some 100) (some 10)).2 exNearestInfo
        (by with_unfolding_all decide)
    obtain ⟨hda, hst⟩ := hatr 10 rfl (by norm_num)
    exact hst

end TradingScan
